import Mathlib

/-!
A shallow embedding of `src/interprocess/acceptor.cpp` (the asynchronous
named-pipe Acceptor) and proofs about its event loop.

Modelling conventions:
* OS handles are natural numbers.  `0` plays the role of `NULL` and `1` the
  role of `INVALID_HANDLE_VALUE`; real handles are drawn from a fresh-handle
  counter carried in the state, so distinct creations yield distinct handles.
* The OS is an explicit environment: each `CreateEvent` / `CreateNamedPipe` /
  `ConnectNamedPipe` / `GetOverlappedResult` / `SetEvent` outcome, and each
  wake of `WaitForMultipleObjectsEx`, is an input supplied by the environment.
* Callbacks (`new_connection_callback_`, `exception_callback_`,
  `async_io_callback_`) are modelled as registered-or-not flags; an
  invocation is recorded as a trace event carrying the arguments passed.
* C++ exceptions become `Except ConnError`; the `try/catch` at the top of
  `LinstenInThread` becomes the loop driver inspecting that value, and the
  `ScopeGuard` destructors become explicit `closeHandle` trace events emitted
  on the exit paths on which the guards run.
-/

namespace Interprocess

/-- The `NULL` handle value (handles are modelled as naturals). -/
def NULL_HANDLE : Nat := 0

/-- The `INVALID_HANDLE_VALUE` sentinel returned by a failed `CreateNamedPipe`. -/
def INVALID_HANDLE_VALUE : Nat := 1

/-- Windows error code `ERROR_IO_PENDING` (997). -/
def ERROR_IO_PENDING : Nat := 997

/-- Windows error code `ERROR_PIPE_CONNECTED` (535). -/
def ERROR_PIPE_CONNECTED : Nat := 535

/-- The single error kind of the component, `ConnectionExcepton` in the
source: a message embedding the platform error code. -/
structure ConnError where
  msg : String
deriving DecidableEq, Repr

/-- Build the message+code error the source builds with
`std::to_string(GetLastError())`. -/
def gleMsg (what : String) (gle : Nat) : ConnError :=
  ⟨what ++ toString gle⟩

/-- Observable events of a run: every OS resource operation and every
callback invocation, in program order. -/
inductive Ev where
  | createPipe (h : Nat)
  | createEvent (h : Nat) (manualReset : Bool) (initSignaled : Bool)
  | closeHandle (h : Nat)
  | setEvent (h : Nat)
  | waitArray (a b c : Nat)
  | invokeNewConn (pipe : Nat) (writeEv : Nat)
  | invokeDeferred
  | invokeException (err : Option ConnError)
deriving DecidableEq, Repr

/-- The Acceptor's fields (`acceptor.cpp`, constructor lines 13-18), plus the
fresh-handle counter of the modelled OS and registered-callback flags. -/
structure AcceptorState where
  pipeName : String
  nextPipe : Nat
  closeEvent : Nat
  overlapEvent : Nat
  handleCtr : Nat
  newConnectionCallback : Bool
  exceptionCallback : Bool
  asyncIoCallback : Bool
deriving DecidableEq, Repr

/-- `Acceptor::Acceptor` (lines 13-18): derive the pipe name from the
endpoint, `next_pipe_ = NULL`, create the auto-reset non-signaled close
event, zero the overlapped record.  Returns the state and the trace of the
construction.  `ctr` seeds the fresh-handle supply. -/
def acceptorCtor (endpoint : String) (ctr : Nat) : AcceptorState × List Ev :=
  ({ pipeName := "\\\\.\\pipe\\" ++ endpoint
     nextPipe := NULL_HANDLE
     closeEvent := ctr
     overlapEvent := NULL_HANDLE
     handleCtr := ctr + 1
     newConnectionCallback := false
     exceptionCallback := false
     asyncIoCallback := false },
   [Ev.createEvent ctr false false])

/-- `Acceptor::SetNewConnectionCallback` (lines 39-41), as a
registered-or-not flag. -/
def setNewConnectionCallback (s : AcceptorState) (b : Bool) : AcceptorState :=
  { s with newConnectionCallback := b }

/-- `Acceptor::SetExceptionCallback` (lines 43-45). -/
def setExceptionCallback (s : AcceptorState) (b : Bool) : AcceptorState :=
  { s with exceptionCallback := b }

/-- `Acceptor::MoveIOFunctionToAlertableThread` (lines 47-50). -/
def moveIOFunctionToAlertableThread (s : AcceptorState) (b : Bool) : AcceptorState :=
  { s with asyncIoCallback := b }

/-- Environment of one `CreateConnectInstance` call: whether
`CreateNamedPipe` succeeds, the `GetLastError` codes, whether
`ConnectNamedPipe` returned nonzero (synchronous success), and whether the
`SetEvent` in the `ERROR_PIPE_CONNECTED` branch succeeds. -/
structure ConnectEnv where
  pipeOk : Bool
  pipeGLE : Nat
  connected : Bool
  connGLE : Nat
  setEventOk : Bool
  setEventGLE : Nat
deriving DecidableEq, Repr

/-- `Acceptor::CreateConnectInstance` (lines 144-199): create the next pipe
instance (assigning `next_pipe_` before the failure check, as the source
does), begin the overlapped connect, and classify the immediate outcome.
Returns the new state, the trace, and `Except`: `.ok pendding` for the two
non-fatal outcomes, `.error` where the source throws `ConnectionExcepton`. -/
def createConnectInstance (s : AcceptorState) (env : ConnectEnv) :
    AcceptorState × List Ev × Except ConnError Bool :=
  if env.pipeOk = false then
    ({ s with nextPipe := INVALID_HANDLE_VALUE }, [],
     .error (gleMsg "CreateNamedPipe failed GLE = " env.pipeGLE))
  else
    let h := s.handleCtr
    let s1 := { s with nextPipe := h, handleCtr := s.handleCtr + 1 }
    if env.connected then
      (s1, [Ev.createPipe h],
       .error (gleMsg "ConnectNamedPipe failed GLE = " env.connGLE))
    else if env.connGLE = ERROR_IO_PENDING then
      (s1, [Ev.createPipe h], .ok true)
    else if env.connGLE = ERROR_PIPE_CONNECTED then
      if env.setEventOk then
        (s1, [Ev.createPipe h, Ev.setEvent s1.overlapEvent], .ok false)
      else
        (s1, [Ev.createPipe h],
         .error (gleMsg "ConnectNamedPipe failed GLE = " env.setEventGLE))
    else
      (s1, [Ev.createPipe h],
       .error (gleMsg "ConnectNamedPipe failed GLE = " env.connGLE))

/-- One wake of the `WaitForMultipleObjectsEx` call (lines 80-85), as
reported by the environment: which of the three events fired (in array
order conn, write, close), an alertable-completion wake, or a wait failure.
A `connReady` wake carries the `GetOverlappedResult` outcome (consulted
only when a connect was pending) and the environment of the re-arm
`CreateConnectInstance` call. -/
inductive LoopStep where
  | connReady (gorOk : Bool) (gorGLE : Nat) (rearm : ConnectEnv)
  | workReady
  | stopSignal
  | ioCompletion
  | waitFailed (gle : Nat)
deriving DecidableEq, Repr

/-- Result of one `switch (wait)` arm. -/
inductive StepResult where
  | next (pedding : Bool)
  | stopped
  | errored (e : ConnError)
deriving DecidableEq, Repr

/-- One iteration of the `for (;;)` loop body (lines 87-133): the `switch`
on the wait result.  `we` is the write event (`events[1]`), `p` the
`pedding` flag. -/
def loopStep (s : AcceptorState) (we : Nat) (p : Bool) :
    LoopStep → AcceptorState × List Ev × StepResult
  | .connReady gorOk gorGLE rearm =>
    if p = true ∧ gorOk = false then
      (s, [], .errored (gleMsg "ConnectNamedPipe failed GLE = " gorGLE))
    else
      let cb : List Ev :=
        if s.newConnectionCallback then [Ev.invokeNewConn s.nextPipe we] else []
      let c := createConnectInstance s rearm
      match c.2.2 with
      | .ok p2 => (c.1, cb ++ c.2.1, .next p2)
      | .error e => (c.1, cb ++ c.2.1, .errored e)
  | .workReady =>
    (s, if s.asyncIoCallback then [Ev.invokeDeferred] else [], .next p)
  | .stopSignal => (s, [], .stopped)
  | .ioCompletion => (s, [], .next p)
  | .waitFailed gle =>
    (s, [], .errored (gleMsg "Unexpected error GLE = " gle))

/-- Outcome of running the loop against a finite environment script. -/
inductive RunOutcome where
  | stopped
  | errored (e : ConnError)
  | running
deriving DecidableEq, Repr

/-- Drive the `for (;;)` loop over the environment's wake script.  If the
script ends before the loop exits, the loop is still `.running`. -/
def runLoop (we : Nat) :
    AcceptorState → Bool → List LoopStep → AcceptorState × List Ev × RunOutcome
  | s, _, [] => (s, [], .running)
  | s, p, step :: rest =>
    let r := loopStep s we p step
    match r.2.2 with
    | .next p2 =>
      let r2 := runLoop we r.1 p2 rest
      (r2.1, r.2.1 ++ r2.2.1, r2.2.2)
    | .stopped => (r.1, r.2.1, .stopped)
    | .errored e => (r.1, r.2.1, .errored e)

/-- Lines 139-141: `if (exception_callback_) exception_callback_(eptr);`. -/
def deliver (s : AcceptorState) (eptr : Option ConnError) : List Ev :=
  if s.exceptionCallback then [Ev.invokeException eptr] else []

/-- Environment of one whole `LinstenInThread` run: the two `CreateEvent`
outcomes, the environment of the first `CreateConnectInstance`, and the
wake script. -/
structure LoopEnv where
  connEventOk : Bool
  connEventGLE : Nat
  writeEventOk : Bool
  writeEventGLE : Nat
  firstConnect : ConnectEnv
  steps : List LoopStep
deriving DecidableEq, Repr

/-- The part of `LinstenInThread` after both events were created: the first
`CreateConnectInstance` (line 77) and the loop; on every exit path the two
`ScopeGuard`s close the write event then the connect event (reverse
declaration order).  The exception callback is then delivered only on the
fatal-error paths, where the throw reaches the catch block (line 135) and
falls through to lines 139-141; on a clean stop the `return` at line 119
leaves `LinstenInThread` before that block, so nothing is delivered. -/
def listenBody (s2 : AcceptorState) (ce we : Nat) (firstConnect : ConnectEnv)
    (steps : List LoopStep) : AcceptorState × List Ev × RunOutcome :=
  let c := createConnectInstance s2 firstConnect
  match c.2.2 with
  | .error e =>
    (c.1, c.2.1 ++ ([Ev.closeHandle we, Ev.closeHandle ce] ++ deliver c.1 (some e)),
     .errored e)
  | .ok pedding =>
    let r := runLoop we c.1 pedding steps
    match r.2.2 with
    | .running => (r.1, c.2.1 ++ r.2.1, .running)
    | .stopped =>
      (r.1, c.2.1 ++ (r.2.1 ++ [Ev.closeHandle we, Ev.closeHandle ce]), .stopped)
    | .errored e =>
      (r.1, c.2.1 ++ (r.2.1 ++ ([Ev.closeHandle we, Ev.closeHandle ce] ++ deliver r.1 (some e))),
       .errored e)

/-- `Acceptor::LinstenInThread` (lines 53-142), keeping the source's
spelling.  Creates the connect event with `CreateEvent(NULL, TRUE, TRUE,
NULL)` — manual-reset, initially signaled — and the write event with
`CreateEvent(NULL, FALSE, FALSE, NULL)` — auto-reset, non-signaled; on a
creation failure the matching guard is dismissed and the error goes to the
catch block.  Then records the wait array `{conn_event, write_event,
close_event_}`, binds `connect_overlap_.hEvent = conn_event`, and runs the
body. -/
def linstenInThread (s : AcceptorState) (env : LoopEnv) :
    AcceptorState × List Ev × RunOutcome :=
  if env.connEventOk = false then
    let e := gleMsg "CreateEvent (connect event) failed GLE = " env.connEventGLE
    (s, deliver s (some e), .errored e)
  else if env.writeEventOk = false then
    let e := gleMsg "CreateEvent (write event) failed GLE = " env.writeEventGLE
    ({ s with handleCtr := s.handleCtr + 1 },
     [Ev.createEvent s.handleCtr true true, Ev.closeHandle s.handleCtr] ++
       deliver s (some e),
     .errored e)
  else
    let ce := s.handleCtr
    let we := s.handleCtr + 1
    let s2 := { s with handleCtr := s.handleCtr + 2, overlapEvent := ce }
    let b := listenBody s2 ce we env.firstConnect env.steps
    (b.1,
     [Ev.createEvent ce true true, Ev.createEvent we false false,
      Ev.waitArray ce we s2.closeEvent] ++ b.2.1,
     b.2.2)

/-- `Acceptor::~Acceptor` (lines 20-24) after `Stop()`: close `next_pipe_`
then `close_event_`. -/
def acceptorDtorTrace (s : AcceptorState) : List Ev :=
  [Ev.closeHandle s.nextPipe, Ev.closeHandle s.closeEvent]

/-- The Acceptor state as configured before `Listen()`: constructed from
`endpoint` with handle seed `ctr`, then the three setters. -/
def listenState (endpoint : String) (ctr : Nat) (cbNew cbExc cbIo : Bool) :
    AcceptorState :=
  moveIOFunctionToAlertableThread
    (setExceptionCallback
      (setNewConnectionCallback (acceptorCtor endpoint ctr).1 cbNew) cbExc) cbIo

/-- Full-lifetime trace: construction, one `Listen()` run against `env`,
destruction (`Stop(); CloseHandle(next_pipe_); CloseHandle(close_event_)`). -/
def lifetimeTrace (endpoint : String) (ctr : Nat) (cbNew cbExc cbIo : Bool)
    (env : LoopEnv) : List Ev :=
  let r := linstenInThread (listenState endpoint ctr cbNew cbExc cbIo) env
  (acceptorCtor endpoint ctr).2 ++ r.2.1 ++ acceptorDtorTrace r.1

/-- Number of `closeHandle h` events in a trace. -/
def closeCount (tr : List Ev) (h : Nat) : Nat :=
  tr.countP fun ev =>
    match ev with
    | Ev.closeHandle h2 => h2 == h
    | _ => false

/-- Number of `createPipe h` events in a trace. -/
def pipeCreateCount (tr : List Ev) (h : Nat) : Nat :=
  tr.countP fun ev =>
    match ev with
    | Ev.createPipe h2 => h2 == h
    | _ => false

/-- Number of `createEvent h _ _` events in a trace. -/
def eventCreateCount (tr : List Ev) (h : Nat) : Nat :=
  tr.countP fun ev =>
    match ev with
    | Ev.createEvent h2 _ _ => h2 == h
    | _ => false

/-- Number of times pipe `h` is handed to the new-connection callback. -/
def handoffCount (tr : List Ev) (h : Nat) : Nat :=
  tr.countP fun ev =>
    match ev with
    | Ev.invokeNewConn h2 _ => h2 == h
    | _ => false

/-- The arguments of the exception-callback invocations in a trace, in
order. -/
def excList (tr : List Ev) : List (Option ConnError) :=
  tr.filterMap fun ev =>
    match ev with
    | Ev.invokeException o => some o
    | _ => none

end Interprocess

namespace Interprocess

/-! ### Concrete scenarios used as witnesses and counterexamples -/

/-- Connect environment: `CreateNamedPipe` succeeds, `ConnectNamedPipe`
reports `ERROR_IO_PENDING`. -/
def pendConnect : ConnectEnv := ⟨true, 0, false, ERROR_IO_PENDING, true, 0⟩

/-- Connect environment: the client is already connected
(`ERROR_PIPE_CONNECTED`) and the manual `SetEvent` fails with code 5. -/
def alreadyConnFailSet : ConnectEnv := ⟨true, 0, false, ERROR_PIPE_CONNECTED, false, 5⟩

/-- Loop environment: both events created, first connect pending, one
client accepted (its pending result succeeds, re-arm pending), then a
clean stop. -/
def cleanStopEnv : LoopEnv :=
  ⟨true, 0, true, 0, pendConnect, [LoopStep.connReady true 0 pendConnect, LoopStep.stopSignal]⟩

/-- Loop environment: first connect pending, then the wait itself fails
with code 7. -/
def waitFailEnv : LoopEnv :=
  ⟨true, 0, true, 0, pendConnect, [LoopStep.waitFailed 7]⟩

/-- Acceptor for endpoint `"svc"`, handle seed 2, all callbacks registered. -/
def acceptorAllCbs : AcceptorState := listenState "svc" 2 true true true

/-- Acceptor for endpoint `"svc"`, handle seed 2, no callbacks registered. -/
def acceptorNoCbs : AcceptorState := listenState "svc" 2 false false false

/-! ### Abstract object state for `Stop()` (claim C6)

`Acceptor::Stop` (lines 31-37) touches three observables: the auto-reset
stop event `close_event_`, the pending pipe (via `DisconnectNamedPipe`),
and the loop thread (joined when joinable).  We model exactly those. -/

/-- Observable state of the Acceptor object for the `Stop()` analysis:
whether `close_event_` is currently signaled, whether the loop thread is
running (joinable), and whether the pending pipe has been disconnected. -/
structure ObjState where
  closeEventSignaled : Bool
  threadJoinable : Bool
  pipeDisconnected : Bool
deriving DecidableEq, Repr

/-- `Acceptor::Stop` (lines 31-37): `SetEvent(close_event_)` signals the
stop event; `DisconnectNamedPipe(next_pipe_)` disconnects the pending
pipe; if the loop thread is joinable it is joined — by the time the join
returns, the loop has observed the stop signal, which the auto-reset event
(created with `bManualReset = FALSE`, line 16) consumed, and the thread
has exited.  (This models the clean-stop case in which the loop exits by
observing the stop signal.) -/
def stopAcceptor (s : ObjState) : ObjState :=
  let s1 : ObjState := { s with closeEventSignaled := true, pipeDisconnected := true }
  if s1.threadJoinable then
    { s1 with closeEventSignaled := false, threadJoinable := false }
  else s1

/-! ### Case analyses of `CreateConnectInstance` -/

/-- `CreateConnectInstance` either fails at `CreateNamedPipe`, leaving
`next_pipe_ = INVALID_HANDLE_VALUE` and creating nothing, or creates
exactly one fresh pipe (recorded in `next_pipe_`), optionally signalling
the connect event. -/
theorem createConnectInstance_cases (s : AcceptorState) (env : ConnectEnv) :
    ((createConnectInstance s env).1 = { s with nextPipe := INVALID_HANDLE_VALUE } ∧
      (createConnectInstance s env).2.1 = [] ∧
      (∃ e, (createConnectInstance s env).2.2 = .error e)) ∨
    ((createConnectInstance s env).1 =
        { s with nextPipe := s.handleCtr, handleCtr := s.handleCtr + 1 } ∧
      ((createConnectInstance s env).2.1 = [Ev.createPipe s.handleCtr] ∨
        (createConnectInstance s env).2.1 =
          [Ev.createPipe s.handleCtr, Ev.setEvent s.overlapEvent])) := by
  simp only [createConnectInstance]
  split
  · exact Or.inl ⟨rfl, rfl, _, rfl⟩
  · split
    · exact Or.inr ⟨rfl, Or.inl rfl⟩
    · split
      · exact Or.inr ⟨rfl, Or.inl rfl⟩
      · split
        · split
          · exact Or.inr ⟨rfl, Or.inr rfl⟩
          · exact Or.inr ⟨rfl, Or.inl rfl⟩
        · exact Or.inr ⟨rfl, Or.inl rfl⟩

/-- If `CreateConnectInstance` returns without raising, it created a fresh
pipe and recorded it in `next_pipe_`. -/
theorem createConnectInstance_ok (s : AcceptorState) (env : ConnectEnv) (p2 : Bool)
    (h : (createConnectInstance s env).2.2 = .ok p2) :
    (createConnectInstance s env).1 =
      { s with nextPipe := s.handleCtr, handleCtr := s.handleCtr + 1 } ∧
    ((createConnectInstance s env).2.1 = [Ev.createPipe s.handleCtr] ∨
      (createConnectInstance s env).2.1 =
        [Ev.createPipe s.handleCtr, Ev.setEvent s.overlapEvent]) := by
  rcases createConnectInstance_cases s env with ⟨_, _, e, he⟩ | hok
  · rw [he] at h; exact absurd h (by simp)
  · exact hok

end Interprocess

namespace Interprocess

/-- `CreateConnectInstance` leaves all callback slots and `close_event_`
untouched. -/
theorem createConnectInstance_flags (s : AcceptorState) (env : ConnectEnv) :
    (createConnectInstance s env).1.newConnectionCallback = s.newConnectionCallback ∧
    (createConnectInstance s env).1.exceptionCallback = s.exceptionCallback ∧
    (createConnectInstance s env).1.asyncIoCallback = s.asyncIoCallback ∧
    (createConnectInstance s env).1.closeEvent = s.closeEvent := by
  rcases createConnectInstance_cases s env with ⟨hst, _, _⟩ | ⟨hst, _⟩ <;>
    rw [hst] <;> exact ⟨rfl, rfl, rfl, rfl⟩

/-- Events a single loop iteration can emit: never an exception delivery,
never a wait-array record, never an event creation, never a close; and
every new-connection invocation passes the loop's write event. -/
theorem loopStep_trace (s : AcceptorState) (we : Nat) (p : Bool) (step : LoopStep) :
    (∀ o, Ev.invokeException o ∉ (loopStep s we p step).2.1) ∧
    (∀ a b c, Ev.waitArray a b c ∉ (loopStep s we p step).2.1) ∧
    (∀ h mr si, Ev.createEvent h mr si ∉ (loopStep s we p step).2.1) ∧
    (∀ h, Ev.closeHandle h ∉ (loopStep s we p step).2.1) ∧
    (∀ q v, Ev.invokeNewConn q v ∈ (loopStep s we p step).2.1 → v = we) := by
  cases step with
  | connReady gorOk gorGLE rearm =>
    simp only [loopStep]
    split
    · simp
    · rcases createConnectInstance_cases s rearm with ⟨_, htr, _, _⟩ | ⟨_, htr | htr⟩ <;>
        cases hres : (createConnectInstance s rearm).2.2 <;>
        cases hcb : s.newConnectionCallback <;>
        simp [hres, htr, hcb]
  | workReady => cases hio : s.asyncIoCallback <;> simp [loopStep, hio]
  | stopSignal => simp [loopStep]
  | ioCompletion => simp [loopStep]
  | waitFailed gle => simp [loopStep]

/-- A single loop iteration leaves the callback slots and `close_event_`
untouched. -/
theorem loopStep_flags (s : AcceptorState) (we : Nat) (p : Bool) (step : LoopStep) :
    (loopStep s we p step).1.newConnectionCallback = s.newConnectionCallback ∧
    (loopStep s we p step).1.exceptionCallback = s.exceptionCallback ∧
    (loopStep s we p step).1.asyncIoCallback = s.asyncIoCallback ∧
    (loopStep s we p step).1.closeEvent = s.closeEvent := by
  cases step with
  | connReady gorOk gorGLE rearm =>
    simp only [loopStep]
    split
    · exact ⟨rfl, rfl, rfl, rfl⟩
    · cases hres : (createConnectInstance s rearm).2.2 <;>
        simpa [hres] using createConnectInstance_flags s rearm
  | workReady => exact ⟨rfl, rfl, rfl, rfl⟩
  | stopSignal => exact ⟨rfl, rfl, rfl, rfl⟩
  | ioCompletion => exact ⟨rfl, rfl, rfl, rfl⟩
  | waitFailed gle => exact ⟨rfl, rfl, rfl, rfl⟩

/-- What the whole `for (;;)` loop can emit, and what it preserves:
no exception delivery, no wait-array record, no event creation, no close;
every new-connection invocation passes the loop's write event; callback
slots and `close_event_` unchanged. -/
theorem runLoop_trace (we : Nat) :
    ∀ (steps : List LoopStep) (s : AcceptorState) (p : Bool),
    (∀ o, Ev.invokeException o ∉ (runLoop we s p steps).2.1) ∧
    (∀ a b c, Ev.waitArray a b c ∉ (runLoop we s p steps).2.1) ∧
    (∀ h mr si, Ev.createEvent h mr si ∉ (runLoop we s p steps).2.1) ∧
    (∀ h, Ev.closeHandle h ∉ (runLoop we s p steps).2.1) ∧
    (∀ q v, Ev.invokeNewConn q v ∈ (runLoop we s p steps).2.1 → v = we) ∧
    (runLoop we s p steps).1.newConnectionCallback = s.newConnectionCallback ∧
    (runLoop we s p steps).1.exceptionCallback = s.exceptionCallback ∧
    (runLoop we s p steps).1.closeEvent = s.closeEvent := by
  intro steps
  induction steps with
  | nil => intro s p; simp [runLoop]
  | cons step rest ih =>
    intro s p
    obtain ⟨h1, h2, h3, h4, h5⟩ := loopStep_trace s we p step
    obtain ⟨f1, f2, f3, f4⟩ := loopStep_flags s we p step
    simp only [runLoop]
    cases hres : (loopStep s we p step).2.2 with
    | next p2 =>
      obtain ⟨g1, g2, g3, g4, g5, g6, g7, g8⟩ := ih (loopStep s we p step).1 p2
      refine ⟨fun o => ?_, fun a b c => ?_, fun h mr si => ?_, fun h => ?_,
        fun q v hv => ?_, ?_, ?_, ?_⟩ <;> simp only [hres, List.mem_append] at *
      · rintro (hm | hm)
        · exact h1 _ hm
        · exact g1 _ hm
      · rintro (hm | hm)
        · exact h2 _ _ _ hm
        · exact g2 _ _ _ hm
      · rintro (hm | hm)
        · exact h3 _ _ _ hm
        · exact g3 _ _ _ hm
      · rintro (hm | hm)
        · exact h4 _ hm
        · exact g4 _ hm
      · rcases hv with hm | hm
        · exact h5 _ _ hm
        · exact g5 _ _ hm
      · rw [g6, f1]
      · rw [g7, f2]
      · rw [g8, f4]
    | stopped =>
      refine ⟨fun o => ?_, fun a b c => ?_, fun h mr si => ?_, fun h => ?_,
        fun q v hv => ?_, ?_, ?_, ?_⟩ <;> simp only [hres] at *
      · exact h1 _
      · exact h2 _ _ _
      · exact h3 _ _ _
      · exact h4 _
      · exact h5 _ _ hv
      · exact f1
      · exact f2
      · exact f4
    | errored e =>
      refine ⟨fun o => ?_, fun a b c => ?_, fun h mr si => ?_, fun h => ?_,
        fun q v hv => ?_, ?_, ?_, ?_⟩ <;> simp only [hres] at *
      · exact h1 _
      · exact h2 _ _ _
      · exact h3 _ _ _
      · exact h4 _
      · exact h5 _ _ hv
      · exact f1
      · exact f2
      · exact f4

end Interprocess

namespace Interprocess

/-- Once the loop has exited (stop or error), later wakes in the
environment script are irrelevant: nothing after the exit is executed.
In particular no failed operation is ever retried. -/
theorem runLoop_exit_append (we : Nat) :
    ∀ (steps : List LoopStep) (s : AcceptorState) (p : Bool) (more : List LoopStep),
    (runLoop we s p steps).2.2 ≠ RunOutcome.running →
    runLoop we s p (steps ++ more) = runLoop we s p steps := by
  intro steps
  induction steps with
  | nil => intro s p more h; exact absurd rfl h
  | cons step rest ih =>
    intro s p more h
    simp only [runLoop] at h
    simp only [List.cons_append, runLoop]
    cases hres : (loopStep s we p step).2.2 with
    | next p2 =>
      simp only [hres, List.append_eq] at h ⊢
      rw [ih _ _ more h]
    | stopped => simp only [hres]
    | errored e => simp only [hres]

/-- A trace containing no exception-delivery event has an empty
delivered-exceptions list. -/
theorem excList_nil_of_no_exc (tr : List Ev) (h : ∀ o, Ev.invokeException o ∉ tr) :
    excList tr = [] := by
  induction tr with
  | nil => rfl
  | cons ev rest ih =>
    have hrest : ∀ o, Ev.invokeException o ∉ rest := by
      intro o hm
      exact h o (List.mem_cons_of_mem _ hm)
    cases ev <;>
      first
        | exact absurd (List.mem_cons_self _ _) (h _)
        | simpa [excList] using ih hrest

/-- A trace of the form `tr0 ++ [invokeException x]` with no delivery in
`tr0` delivers exactly once, with value `x`. -/
theorem excList_single (tr tr0 : List Ev) (x : Option ConnError)
    (htr : tr = tr0 ++ [Ev.invokeException x])
    (h0 : ∀ o, Ev.invokeException o ∉ tr0) :
    excList tr = [x] := by
  have h1 : excList tr0 = [] := excList_nil_of_no_exc tr0 h0
  subst htr
  simp only [excList] at h1 ⊢
  simp [List.filterMap_append, h1]

end Interprocess

namespace Interprocess

/-- `deliver` only reads the exception-callback registration flag. -/
theorem deliver_congr {s t : AcceptorState}
    (h : s.exceptionCallback = t.exceptionCallback) (x : Option ConnError) :
    deliver s x = deliver t x := by
  simp [deliver, h]

/-- A fatal-error exit of the loop body ends with the exception-callback
delivery (the throw reaches the catch block and lines 139-141), after the
scoped guards closed the two loop events; nothing before that point
delivers an exception. -/
theorem listenBody_deliver (s2 : AcceptorState) (ce we : Nat) (fc : ConnectEnv)
    (steps : List LoopStep) (e : ConnError)
    (herr : (listenBody s2 ce we fc steps).2.2 = RunOutcome.errored e) :
    ∃ tr0, (listenBody s2 ce we fc steps).2.1 = tr0 ++ deliver s2 (some e) ∧
      (∀ o, Ev.invokeException o ∉ tr0) := by
  obtain ⟨hfl1, hfl2, hfl3, hfl4⟩ := createConnectInstance_flags s2 fc
  rcases createConnectInstance_cases s2 fc with ⟨_, htr, _⟩ | ⟨_, htr | htr⟩ <;>
  · cases hc : (createConnectInstance s2 fc).2.2 with
    | error e0 =>
      have he : e0 = e := by
        simp only [listenBody, hc, RunOutcome.errored.injEq] at herr
        exact herr
      subst he
      refine ⟨(createConnectInstance s2 fc).2.1 ++ [Ev.closeHandle we, Ev.closeHandle ce],
        ?_, ?_⟩
      · simp [listenBody, hc, List.append_assoc, deliver_congr hfl2]
      · intro o
        simp [htr]
    | ok p =>
      obtain ⟨r1, r2, r3, r4, r5, r6, r7, r8⟩ :=
        runLoop_trace we steps (createConnectInstance s2 fc).1 p
      have hdel : ∀ x, deliver (runLoop we (createConnectInstance s2 fc).1 p steps).1 x =
          deliver s2 x := by
        intro x
        exact deliver_congr (by rw [r7, hfl2]) x
      cases hrl : (runLoop we (createConnectInstance s2 fc).1 p steps).2.2 with
      | running =>
        rw [show (listenBody s2 ce we fc steps).2.2 = RunOutcome.running from
          by simp [listenBody, hc, hrl]] at herr
        exact absurd herr (by simp)
      | stopped =>
        rw [show (listenBody s2 ce we fc steps).2.2 = RunOutcome.stopped from
          by simp [listenBody, hc, hrl]] at herr
        exact absurd herr (by simp)
      | errored e1 =>
        have he : e1 = e := by
          simp only [listenBody, hc, hrl, RunOutcome.errored.injEq] at herr
          exact herr
        subst he
        refine ⟨(createConnectInstance s2 fc).2.1 ++
          ((runLoop we (createConnectInstance s2 fc).1 p steps).2.1 ++
            [Ev.closeHandle we, Ev.closeHandle ce]), ?_, ?_⟩
        · simp [listenBody, hc, hrl, hdel, List.append_assoc]
        · intro o
          simp [htr]
          intro hm
          exact r1 o hm

end Interprocess

namespace Interprocess

/-- Reduction of `linstenInThread` when both event creations succeed. -/
theorem linstenInThread_eq_of_ok (s : AcceptorState) (env : LoopEnv)
    (hce : env.connEventOk = true) (hwe : env.writeEventOk = true) :
    linstenInThread s env =
      ((listenBody { s with handleCtr := s.handleCtr + 2, overlapEvent := s.handleCtr }
          s.handleCtr (s.handleCtr + 1) env.firstConnect env.steps).1,
       [Ev.createEvent s.handleCtr true true, Ev.createEvent (s.handleCtr + 1) false false,
        Ev.waitArray s.handleCtr (s.handleCtr + 1) s.closeEvent] ++
         (listenBody { s with handleCtr := s.handleCtr + 2, overlapEvent := s.handleCtr }
            s.handleCtr (s.handleCtr + 1) env.firstConnect env.steps).2.1,
       (listenBody { s with handleCtr := s.handleCtr + 2, overlapEvent := s.handleCtr }
          s.handleCtr (s.handleCtr + 1) env.firstConnect env.steps).2.2) := by
  simp [linstenInThread, hce, hwe]

/-- A fatal-error exit of `LinstenInThread` ends with the
exception-callback delivery (lines 139-141), and delivers nothing before
that point. -/
theorem linstenInThread_deliver (s : AcceptorState) (env : LoopEnv) (e : ConnError)
    (herr : (linstenInThread s env).2.2 = RunOutcome.errored e) :
    ∃ tr0, (linstenInThread s env).2.1 = tr0 ++ deliver s (some e) ∧
      (∀ o, Ev.invokeException o ∉ tr0) := by
  cases hce : env.connEventOk with
  | false =>
    have he : gleMsg "CreateEvent (connect event) failed GLE = " env.connEventGLE = e := by
      have h2 := herr
      simp only [linstenInThread, hce] at h2
      simpa using h2
    refine ⟨[], ?_, by simp⟩
    rw [← he]
    simp [linstenInThread, hce]
  | true =>
    cases hwe : env.writeEventOk with
    | false =>
      have he : gleMsg "CreateEvent (write event) failed GLE = " env.writeEventGLE = e := by
        have h2 := herr
        simp only [linstenInThread, hce, hwe] at h2
        simpa using h2
      refine ⟨[Ev.createEvent s.handleCtr true true, Ev.closeHandle s.handleCtr], ?_, by simp⟩
      rw [← he]
      simp [linstenInThread, hce, hwe]
    | true =>
      rw [linstenInThread_eq_of_ok s env hce hwe] at herr ⊢
      have hb := listenBody_deliver
        { s with handleCtr := s.handleCtr + 2, overlapEvent := s.handleCtr }
        s.handleCtr (s.handleCtr + 1) env.firstConnect env.steps e (by simpa using herr)
      obtain ⟨tr0, htr0, h0⟩ := hb
      refine ⟨[Ev.createEvent s.handleCtr true true, Ev.createEvent (s.handleCtr + 1) false false,
        Ev.waitArray s.handleCtr (s.handleCtr + 1) s.closeEvent] ++ tr0, ?_, ?_⟩
      · rw [htr0]
        rw [deliver_congr (show AcceptorState.exceptionCallback
            { s with handleCtr := s.handleCtr + 2, overlapEvent := s.handleCtr } =
            s.exceptionCallback from rfl)]
        simp [List.append_assoc]
      · intro o
        simp
        exact h0 o

end Interprocess

namespace Interprocess

/-- Once the loop body has exited, extending the wake script changes
nothing: the whole body run is identical. -/
theorem listenBody_steps_append (s2 : AcceptorState) (ce we : Nat) (fc : ConnectEnv)
    (steps more : List LoopStep)
    (hout : (listenBody s2 ce we fc steps).2.2 ≠ RunOutcome.running) :
    listenBody s2 ce we fc (steps ++ more) = listenBody s2 ce we fc steps := by
  cases hc : (createConnectInstance s2 fc).2.2 with
  | error e => simp [listenBody, hc]
  | ok p =>
    have hrl : (runLoop we (createConnectInstance s2 fc).1 p steps).2.2
        ≠ RunOutcome.running := by
      intro hr
      exact hout (by simp [listenBody, hc, hr])
    simp only [listenBody, hc]
    rw [runLoop_exit_append we steps _ p more hrl]

/-- Once `LinstenInThread` has exited, extending the wake script changes
nothing: the whole run is identical. -/
theorem linstenInThread_steps_append (s : AcceptorState) (env : LoopEnv)
    (more : List LoopStep)
    (hout : (linstenInThread s env).2.2 ≠ RunOutcome.running) :
    linstenInThread s { env with steps := env.steps ++ more } = linstenInThread s env := by
  obtain ⟨ceok, cegle, weok, wegle, fc, steps⟩ := env
  cases ceok with
  | false => simp [linstenInThread]
  | true =>
    cases weok with
    | false => simp [linstenInThread]
    | true =>
      show linstenInThread s ⟨true, cegle, true, wegle, fc, steps ++ more⟩ =
        linstenInThread s ⟨true, cegle, true, wegle, fc, steps⟩
      rw [linstenInThread_eq_of_ok s ⟨true, cegle, true, wegle, fc, steps⟩ rfl rfl] at hout
      rw [linstenInThread_eq_of_ok s ⟨true, cegle, true, wegle, fc, steps ++ more⟩ rfl rfl,
        linstenInThread_eq_of_ok s ⟨true, cegle, true, wegle, fc, steps⟩ rfl rfl]
      have hb : (listenBody { s with handleCtr := s.handleCtr + 2, overlapEvent := s.handleCtr }
          s.handleCtr (s.handleCtr + 1) fc steps).2.2 ≠ RunOutcome.running := by
        simpa using hout
      dsimp only
      rw [listenBody_steps_append _ _ _ _ _ more hb]

end Interprocess

namespace Interprocess

/-- **C7.** No internally-detected error is ever retried: on a fatal exit
the rest of the environment script is irrelevant (the first error unwinds
the loop and nothing further is attempted), and the captured error is
delivered exactly once through the exception callback when one is
registered, or silently dropped (no delivery, no propagation) when not. -/
theorem first_error_terminal_and_delivered_once (s : AcceptorState) (env : LoopEnv)
    (more : List LoopStep) (e : ConnError)
    (herr : (linstenInThread s env).2.2 = RunOutcome.errored e) :
    linstenInThread s { env with steps := env.steps ++ more } = linstenInThread s env ∧
    excList (linstenInThread s env).2.1 =
      (if s.exceptionCallback then [some e] else []) := by
  have hout : (linstenInThread s env).2.2 ≠ RunOutcome.running := by
    rw [herr]
    intro hc
    cases hc
  refine ⟨linstenInThread_steps_append s env more hout, ?_⟩
  obtain ⟨tr0, htr, h0⟩ := linstenInThread_deliver s env e herr
  rcases Bool.eq_false_or_eq_true s.exceptionCallback with hcb | hcb
  · simp [deliver, hcb] at htr
    simp [hcb]
    exact excList_single _ tr0 _ htr h0
  · simp [deliver, hcb] at htr
    simp [hcb]
    rw [htr]
    exact excList_nil_of_no_exc tr0 h0

/-- Witness for the no-retry theorem: a run whose second wake is a failed
wait. -/
theorem first_error_terminal_and_delivered_once_witness :
    linstenInThread acceptorAllCbs { waitFailEnv with steps := waitFailEnv.steps ++ [LoopStep.stopSignal] }
        = linstenInThread acceptorAllCbs waitFailEnv ∧
    excList (linstenInThread acceptorAllCbs waitFailEnv).2.1 =
      (if acceptorAllCbs.exceptionCallback then [some (gleMsg "Unexpected error GLE = " 7)] else []) :=
  first_error_terminal_and_delivered_once acceptorAllCbs waitFailEnv [LoopStep.stopSignal]
    (gleMsg "Unexpected error GLE = " 7) (by decide)

end Interprocess

namespace Interprocess

/-- Anything in a `deliver` trace is the exception-callback invocation. -/
theorem mem_deliver {s : AcceptorState} {x : Option ConnError} {ev : Ev}
    (h : ev ∈ deliver s x) : ev = Ev.invokeException x := by
  unfold deliver at h
  split at h
  · simpa using h
  · exact absurd h (List.not_mem_nil _)

/-- Anything in a `CreateConnectInstance` trace is the pipe creation or
the manual connect-event signal. -/
theorem createConnectInstance_mem (s : AcceptorState) (env : ConnectEnv) (ev : Ev)
    (h : ev ∈ (createConnectInstance s env).2.1) :
    ev = Ev.createPipe s.handleCtr ∨ ev = Ev.setEvent s.overlapEvent := by
  rcases createConnectInstance_cases s env with ⟨_, htr, _⟩ | ⟨_, htr | htr⟩ <;>
    rw [htr] at h <;> simp at h <;> tauto

/-- Anything in a loop-body trace is a connect-instance event, a loop
event, one of the two guard closes, or the exception delivery. -/
theorem listenBody_mem (s2 : AcceptorState) (ce we : Nat) (fc : ConnectEnv)
    (steps : List LoopStep) (ev : Ev)
    (hm : ev ∈ (listenBody s2 ce we fc steps).2.1) :
    ev ∈ (createConnectInstance s2 fc).2.1 ∨
    (∃ p, ev ∈ (runLoop we (createConnectInstance s2 fc).1 p steps).2.1) ∨
    ev = Ev.closeHandle we ∨ ev = Ev.closeHandle ce ∨
    (∃ x, ev = Ev.invokeException x) := by
  cases hc : (createConnectInstance s2 fc).2.2 with
  | error e =>
    simp only [listenBody, hc] at hm
    rcases List.mem_append.mp hm with hm | hm
    · exact Or.inl hm
    rcases List.mem_append.mp hm with hm | hm
    · rcases List.mem_cons.mp hm with h | hm
      · exact Or.inr (Or.inr (Or.inl h))
      rcases List.mem_cons.mp hm with h | hm
      · exact Or.inr (Or.inr (Or.inr (Or.inl h)))
      · exact absurd hm (List.not_mem_nil _)
    · exact Or.inr (Or.inr (Or.inr (Or.inr ⟨some e, mem_deliver hm⟩)))
  | ok p =>
    cases hrl : (runLoop we (createConnectInstance s2 fc).1 p steps).2.2 with
    | running =>
      simp only [listenBody, hc, hrl] at hm
      rcases List.mem_append.mp hm with hm | hm
      · exact Or.inl hm
      · exact Or.inr (Or.inl ⟨p, hm⟩)
    | stopped =>
      simp only [listenBody, hc, hrl] at hm
      rcases List.mem_append.mp hm with hm | hm
      · exact Or.inl hm
      rcases List.mem_append.mp hm with hm | hm
      · exact Or.inr (Or.inl ⟨p, hm⟩)
      · rcases List.mem_cons.mp hm with h | hm
        · exact Or.inr (Or.inr (Or.inl h))
        rcases List.mem_cons.mp hm with h | hm
        · exact Or.inr (Or.inr (Or.inr (Or.inl h)))
        · exact absurd hm (List.not_mem_nil _)
    | errored e =>
      simp only [listenBody, hc, hrl] at hm
      rcases List.mem_append.mp hm with hm | hm
      · exact Or.inl hm
      rcases List.mem_append.mp hm with hm | hm
      · exact Or.inr (Or.inl ⟨p, hm⟩)
      rcases List.mem_append.mp hm with hm | hm
      · rcases List.mem_cons.mp hm with h | hm
        · exact Or.inr (Or.inr (Or.inl h))
        rcases List.mem_cons.mp hm with h | hm
        · exact Or.inr (Or.inr (Or.inr (Or.inl h)))
        · exact absurd hm (List.not_mem_nil _)
      · exact Or.inr (Or.inr (Or.inr (Or.inr ⟨some e, mem_deliver hm⟩)))

end Interprocess

namespace Interprocess

/-- A clean stop of the loop body delivers nothing: the `return` at line
119 exits `LinstenInThread` before the delivery block at lines 139-141. -/
theorem listenBody_stopped_no_deliver (s2 : AcceptorState) (ce we : Nat) (fc : ConnectEnv)
    (steps : List LoopStep)
    (hstop : (listenBody s2 ce we fc steps).2.2 = RunOutcome.stopped) :
    ∀ o, Ev.invokeException o ∉ (listenBody s2 ce we fc steps).2.1 := by
  cases hc : (createConnectInstance s2 fc).2.2 with
  | error e =>
    rw [show (listenBody s2 ce we fc steps).2.2 = RunOutcome.errored e from
      by simp [listenBody, hc]] at hstop
    exact absurd hstop (by simp)
  | ok p =>
    obtain ⟨r1, -, -, -, -, -, -, -⟩ :=
      runLoop_trace we steps (createConnectInstance s2 fc).1 p
    cases hrl : (runLoop we (createConnectInstance s2 fc).1 p steps).2.2 with
    | running =>
      rw [show (listenBody s2 ce we fc steps).2.2 = RunOutcome.running from
        by simp [listenBody, hc, hrl]] at hstop
      exact absurd hstop (by simp)
    | errored e =>
      rw [show (listenBody s2 ce we fc steps).2.2 = RunOutcome.errored e from
        by simp [listenBody, hc, hrl]] at hstop
      exact absurd hstop (by simp)
    | stopped =>
      intro o hm
      simp only [listenBody, hc, hrl] at hm
      rcases List.mem_append.mp hm with hm | hm
      · rcases createConnectInstance_mem _ _ _ hm with h | h <;> exact Ev.noConfusion h
      rcases List.mem_append.mp hm with hm | hm
      · exact r1 o hm
      · rcases List.mem_cons.mp hm with h | hm
        · exact Ev.noConfusion h
        rcases List.mem_cons.mp hm with h | hm
        · exact Ev.noConfusion h
        · exact absurd hm (List.not_mem_nil _)


/-- A clean stop of `LinstenInThread` delivers nothing: the exception
callback is never invoked when the loop exits via the stop signal. -/
theorem linstenInThread_stopped_no_deliver (s : AcceptorState) (env : LoopEnv)
    (hstop : (linstenInThread s env).2.2 = RunOutcome.stopped) :
    ∀ o, Ev.invokeException o ∉ (linstenInThread s env).2.1 := by
  cases hce : env.connEventOk with
  | false =>
    have h2 := hstop
    simp [linstenInThread, hce] at h2
  | true =>
    cases hwe : env.writeEventOk with
    | false =>
      have h2 := hstop
      simp [linstenInThread, hce, hwe] at h2
    | true =>
      rw [linstenInThread_eq_of_ok s env hce hwe] at hstop ⊢
      have hb := listenBody_stopped_no_deliver
        { s with handleCtr := s.handleCtr + 2, overlapEvent := s.handleCtr }
        s.handleCtr (s.handleCtr + 1) env.firstConnect env.steps (by simpa using hstop)
      intro o hm
      rcases List.mem_append.mp hm with hm | hm
      · rcases List.mem_cons.mp hm with h | hm
        · exact Ev.noConfusion h
        rcases List.mem_cons.mp hm with h | hm
        · exact Ev.noConfusion h
        rcases List.mem_cons.mp hm with h | hm
        · exact Ev.noConfusion h
        · exact absurd hm (List.not_mem_nil _)
      · exact hb o hm

/-- Counterexample to **C1** (claim: the exception callback is invoked
exactly once per loop lifetime on every exit path, with an empty value on
a clean stop): in a concrete clean-stop run with the exception callback
registered, the loop exits via the stop signal and the callback is never
invoked — the `return` at line 119 leaves `LinstenInThread` before the
delivery block at lines 139-141, which only the catch path reaches. -/
theorem clean_stop_delivers_no_exception :
    acceptorAllCbs.exceptionCallback = true ∧
    (linstenInThread acceptorAllCbs cleanStopEnv).2.2 = RunOutcome.stopped ∧
    excList (linstenInThread acceptorAllCbs cleanStopEnv).2.1 = [] := by
  decide

/-- **C1 amended.** For every run of the Acceptor's event loop, if an
exception callback is registered, it is invoked exactly once, at loop
exit, on every fatal-error exit path, with the captured error value; on a
clean stop via the stop signal it is not invoked at all. -/
theorem exception_callback_only_on_fatal_exit (s : AcceptorState) (env : LoopEnv)
    (hcb : s.exceptionCallback = true) :
    (∀ e, (linstenInThread s env).2.2 = RunOutcome.errored e →
      excList (linstenInThread s env).2.1 = [some e] ∧
      ∃ tr0, (linstenInThread s env).2.1 = tr0 ++ [Ev.invokeException (some e)]) ∧
    ((linstenInThread s env).2.2 = RunOutcome.stopped →
      excList (linstenInThread s env).2.1 = []) := by
  constructor
  · intro e herr
    obtain ⟨tr0, htr, h0⟩ := linstenInThread_deliver s env e herr
    simp only [deliver, hcb, if_true] at htr
    exact ⟨excList_single _ tr0 _ htr h0, tr0, htr⟩
  · intro hstop
    exact excList_nil_of_no_exc _ (linstenInThread_stopped_no_deliver s env hstop)

/-- Witness for the fatal-exit-only delivery theorem: a failed-wait run
delivers the captured error once; the clean-stop run delivers nothing. -/
theorem exception_callback_only_on_fatal_exit_witness :
    excList (linstenInThread acceptorAllCbs waitFailEnv).2.1 =
      [some (gleMsg "Unexpected error GLE = " 7)] ∧
    excList (linstenInThread acceptorAllCbs cleanStopEnv).2.1 = [] :=
  ⟨((exception_callback_only_on_fatal_exit acceptorAllCbs waitFailEnv (by decide)).1
      (gleMsg "Unexpected error GLE = " 7) (by decide)).1,
   (exception_callback_only_on_fatal_exit acceptorAllCbs cleanStopEnv (by decide)).2
      (by decide)⟩

/-- **C9.** Within one event-loop run, every new-connection callback
invocation receives the same write-completion event handle: the single
auto-reset event created once at loop start, which is also slot 1 of the
loop's wait array (its deferred-work-ready signal).  No connection ever
receives a distinct per-connection write-completion event. -/
theorem write_event_shared_across_connections (s : AcceptorState) (env : LoopEnv)
    (q w a b c : Nat)
    (hconn : Ev.invokeNewConn q w ∈ (linstenInThread s env).2.1)
    (harr : Ev.waitArray a b c ∈ (linstenInThread s env).2.1) :
    w = b ∧ Ev.createEvent b false false ∈ (linstenInThread s env).2.1 := by
  cases hce : env.connEventOk with
  | false =>
    simp [linstenInThread, hce] at hconn
    exact absurd (mem_deliver hconn) (by simp)
  | true =>
    cases hwe : env.writeEventOk with
    | false =>
      simp [linstenInThread, hce, hwe] at hconn
      exact Ev.noConfusion (mem_deliver hconn)
    | true =>
      rw [linstenInThread_eq_of_ok s env hce hwe] at hconn harr ⊢
      have hbw : w = s.handleCtr + 1 := by
        rcases List.mem_append.mp hconn with hm | hm
        · rcases List.mem_cons.mp hm with h | hm
          · exact Ev.noConfusion h
          rcases List.mem_cons.mp hm with h | hm
          · exact Ev.noConfusion h
          rcases List.mem_cons.mp hm with h | hm
          · exact Ev.noConfusion h
          · exact absurd hm (List.not_mem_nil _)
        · rcases listenBody_mem _ _ _ _ _ _ hm with hm2 | ⟨p, hm2⟩ | hm2 | hm2 | ⟨x, hm2⟩
          · rcases createConnectInstance_mem _ _ _ hm2 with h | h <;> exact Ev.noConfusion h
          · exact (runLoop_trace (s.handleCtr + 1) env.steps _ p).2.2.2.2.1 q w hm2
          · exact Ev.noConfusion hm2
          · exact Ev.noConfusion hm2
          · exact Ev.noConfusion hm2
      have hbb : b = s.handleCtr + 1 := by
        rcases List.mem_append.mp harr with hm | hm
        · rcases List.mem_cons.mp hm with h | hm
          · exact Ev.noConfusion h
          rcases List.mem_cons.mp hm with h | hm
          · exact Ev.noConfusion h
          rcases List.mem_cons.mp hm with h | hm
          · injection h with h1 h2 h3
          · exact absurd hm (List.not_mem_nil _)
        · rcases listenBody_mem _ _ _ _ _ _ hm with hm2 | ⟨p, hm2⟩ | hm2 | hm2 | ⟨x, hm2⟩
          · rcases createConnectInstance_mem _ _ _ hm2 with h | h <;> exact Ev.noConfusion h
          · exact absurd hm2 ((runLoop_trace (s.handleCtr + 1) env.steps _ p).2.1 a b c)
          · exact Ev.noConfusion hm2
          · exact Ev.noConfusion hm2
          · exact Ev.noConfusion hm2
      subst hbw hbb
      exact ⟨rfl, by simp⟩

/-- Witness for the shared-write-event theorem: in the clean-stop run the
accepted pipe 5 is delivered with write event 4, slot 1 of the wait
array. -/
theorem write_event_shared_across_connections_witness :
    (5 : Nat) = 5 ∧
    Ev.createEvent 4 false false ∈ (linstenInThread acceptorAllCbs cleanStopEnv).2.1 := by
  have h := write_event_shared_across_connections acceptorAllCbs cleanStopEnv
    5 4 3 4 2 (by decide) (by decide)
  exact ⟨rfl, h.2⟩

end Interprocess

namespace Interprocess

/-- Counterexample to **C3** (claim: both loop events are created with
auto-reset semantics): in a concrete run, the connect-ready event (handle
3, slot 0 of the wait array) is created with `bManualReset = TRUE` and
initially signaled (`CreateEvent(NULL, TRUE, TRUE, NULL)`, line 56); it is
not created auto-reset. -/
theorem connect_event_is_manual_reset :
    Ev.waitArray 3 4 2 ∈ (linstenInThread acceptorAllCbs cleanStopEnv).2.1 ∧
    Ev.createEvent 3 true true ∈ (linstenInThread acceptorAllCbs cleanStopEnv).2.1 ∧
    (∀ si, Ev.createEvent 3 false si ∉ (linstenInThread acceptorAllCbs cleanStopEnv).2.1) := by
  decide

/-- **C3 amended.** At the start of every event-loop run (both creations
succeeding), the loop creates its connect-ready event manual-reset and
initially signaled, and its deferred-work-ready event auto-reset and
non-signaled; they are slots 0 and 1 of the wait array. -/
theorem loop_event_creation_flags (s : AcceptorState) (env : LoopEnv)
    (hce : env.connEventOk = true) (hwe : env.writeEventOk = true) :
    ∃ ce we,
      Ev.waitArray ce we s.closeEvent ∈ (linstenInThread s env).2.1 ∧
      Ev.createEvent ce true true ∈ (linstenInThread s env).2.1 ∧
      Ev.createEvent we false false ∈ (linstenInThread s env).2.1 := by
  rw [linstenInThread_eq_of_ok s env hce hwe]
  exact ⟨s.handleCtr, s.handleCtr + 1, by simp, by simp, by simp⟩

/-- Witness for the amended event-flags theorem. -/
theorem loop_event_creation_flags_witness :
    ∃ ce we,
      Ev.waitArray ce we acceptorAllCbs.closeEvent
          ∈ (linstenInThread acceptorAllCbs cleanStopEnv).2.1 ∧
      Ev.createEvent ce true true ∈ (linstenInThread acceptorAllCbs cleanStopEnv).2.1 ∧
      Ev.createEvent we false false ∈ (linstenInThread acceptorAllCbs cleanStopEnv).2.1 :=
  loop_event_creation_flags acceptorAllCbs cleanStopEnv (by decide) (by decide)

/-- Counterexample to **C4** (claim: on `ERROR_PIPE_CONNECTED` the call
signals the connect event and returns `pending = false`): when the
`SetEvent` call itself fails (here with code 5), the source falls through
to the default case and raises a `ConnectionError` instead of returning. -/
theorem pipe_connected_with_failed_set_event_raises :
    (createConnectInstance acceptorAllCbs alreadyConnFailSet).2.2
        = Except.error ⟨"ConnectNamedPipe failed GLE = 5"⟩ ∧
    (createConnectInstance acceptorAllCbs alreadyConnFailSet).2.2
        ≠ Except.ok false := by
  have hval : (createConnectInstance acceptorAllCbs alreadyConnFailSet).2.2
      = Except.error ⟨"ConnectNamedPipe failed GLE = 5"⟩ := rfl
  refine ⟨hval, ?_⟩
  intro h
  rw [hval] at h
  exact Except.noConfusion h

/-- **C4 amended.** After creating an endpoint and beginning its
asynchronous connect, `CreateConnectInstance` classifies the immediate
outcome as: synchronous success raises a ConnectionError;
`ERROR_IO_PENDING` returns `pending = true`; `ERROR_PIPE_CONNECTED` with a
successful manual signal of the connect-ready event returns
`pending = false`; `ERROR_PIPE_CONNECTED` with a failed signal raises a
ConnectionError; every other code raises a ConnectionError. -/
theorem create_connect_instance_classification (s : AcceptorState) (env : ConnectEnv)
    (hp : env.pipeOk = true) :
    (env.connected = true →
      (createConnectInstance s env).2.2 =
        Except.error (gleMsg "ConnectNamedPipe failed GLE = " env.connGLE)) ∧
    (env.connected = false → env.connGLE = ERROR_IO_PENDING →
      (createConnectInstance s env).2.2 = Except.ok true) ∧
    (env.connected = false → env.connGLE = ERROR_PIPE_CONNECTED → env.setEventOk = true →
      (createConnectInstance s env).2.2 = Except.ok false ∧
      Ev.setEvent s.overlapEvent ∈ (createConnectInstance s env).2.1) ∧
    (env.connected = false → env.connGLE = ERROR_PIPE_CONNECTED → env.setEventOk = false →
      (createConnectInstance s env).2.2 =
        Except.error (gleMsg "ConnectNamedPipe failed GLE = " env.setEventGLE)) ∧
    (env.connected = false → env.connGLE ≠ ERROR_IO_PENDING →
      env.connGLE ≠ ERROR_PIPE_CONNECTED →
      (createConnectInstance s env).2.2 =
        Except.error (gleMsg "ConnectNamedPipe failed GLE = " env.connGLE)) := by
  refine ⟨fun hc => ?_, fun hc hgle => ?_, fun hc hgle hse => ?_, fun hc hgle hse => ?_,
    fun hc h1 h2 => ?_⟩
  · simp [createConnectInstance, hp, hc]
  · simp [createConnectInstance, hp, hc, hgle, ERROR_IO_PENDING]
  · simp [createConnectInstance, hp, hc, hgle, hse, ERROR_IO_PENDING, ERROR_PIPE_CONNECTED]
  · simp [createConnectInstance, hp, hc, hgle, hse, ERROR_IO_PENDING, ERROR_PIPE_CONNECTED]
  · simp only [ERROR_IO_PENDING] at h1
    simp only [ERROR_PIPE_CONNECTED] at h2
    simp [createConnectInstance, hp, hc, h1, h2, ERROR_IO_PENDING, ERROR_PIPE_CONNECTED]

/-- Witness for the classification theorem: the pending case. -/
theorem create_connect_instance_classification_witness :
    (createConnectInstance acceptorAllCbs pendConnect).2.2 = Except.ok true :=
  (create_connect_instance_classification acceptorAllCbs pendConnect rfl).2.1 rfl rfl

end Interprocess

namespace Interprocess

/-- **C5.** On every connect-ready wake that accepts a client (the
connect was not pending, or its pending result succeeded), with a
new-connection callback registered, the branch first invokes the callback
with the just-accepted endpoint and the loop's write event, and the entire
re-arm trace (`CreateConnectInstance`, beginning with the next endpoint
creation) comes strictly after the invocation. -/
theorem new_connection_callback_before_rearm (s : AcceptorState) (we : Nat)
    (p gorOk : Bool) (gorGLE : Nat) (rearm : ConnectEnv)
    (hcb : s.newConnectionCallback = true)
    (hok : p = false ∨ gorOk = true) :
    (loopStep s we p (LoopStep.connReady gorOk gorGLE rearm)).2.1 =
      Ev.invokeNewConn s.nextPipe we :: (createConnectInstance s rearm).2.1 := by
  have hcond : ¬(p = true ∧ gorOk = false) := by
    rcases hok with h | h <;> simp [h]
  simp only [loopStep, if_neg hcond, hcb, if_true]
  cases hres : (createConnectInstance s rearm).2.2 <;> simp [hres]

/-- Witness for the callback-before-re-arm theorem: accepting the pending
client while re-arming with another pending connect. -/
theorem new_connection_callback_before_rearm_witness :
    (loopStep acceptorAllCbs 4 true (LoopStep.connReady true 0 pendConnect)).2.1 =
      Ev.invokeNewConn acceptorAllCbs.nextPipe 4 ::
        (createConnectInstance acceptorAllCbs pendConnect).2.1 :=
  new_connection_callback_before_rearm acceptorAllCbs 4 true true 0 pendConnect
    (by decide) (Or.inr rfl)

/-- Counterexample to **C6** (claim: the observable state after
`Stop(); Stop()` equals the state after a single `Stop()`): starting from
a running loop, one `Stop()` leaves the stop event consumed (the loop's
auto-reset wait observed it) and the thread joined; the second `Stop()`
re-signals the stop event and leaves it signaled, so the states differ. -/
theorem double_stop_changes_state :
    stopAcceptor (stopAcceptor ⟨false, true, false⟩) ≠ stopAcceptor ⟨false, true, false⟩ := by
  decide

/-- **C6 amended.** `Stop()` is safe without `Listen()` and a second
`Stop()` is absorbed without error: after any `Stop()` the thread is not
joinable (so the second call never joins again), and the only state change
the second call makes is leaving the stop event signaled; from the second
call on, `Stop()` is idempotent. -/
theorem stop_twice_absorbed (s : ObjState) :
    stopAcceptor (stopAcceptor s) = { stopAcceptor s with closeEventSignaled := true } ∧
    (stopAcceptor s).threadJoinable = false ∧
    stopAcceptor (stopAcceptor (stopAcceptor s)) = stopAcceptor (stopAcceptor s) := by
  rcases s with ⟨a, b, c⟩
  cases a <;> cases b <;> cases c <;> decide

/-- **C8.** When the deferred-work-ready signal fires, the loop invokes
the registered deferred-work callback if one is registered and changes
nothing else: the Acceptor state (pending endpoint, connect-completion
binding, counters, callbacks) is untouched, the `pedding` flag is carried
over unchanged, no handle is created or closed, and no re-arm occurs. -/
theorem deferred_work_branch_frame (s : AcceptorState) (we : Nat) (p : Bool) :
    (loopStep s we p LoopStep.workReady).1 = s ∧
    (loopStep s we p LoopStep.workReady).2.2 = StepResult.next p ∧
    (loopStep s we p LoopStep.workReady).2.1 =
      (if s.asyncIoCallback then [Ev.invokeDeferred] else []) ∧
    (∀ h, Ev.createPipe h ∉ (loopStep s we p LoopStep.workReady).2.1) ∧
    (∀ h, Ev.closeHandle h ∉ (loopStep s we p LoopStep.workReady).2.1) := by
  refine ⟨rfl, rfl, rfl, fun h => ?_, fun h => ?_⟩ <;>
    cases hio : s.asyncIoCallback <;> simp [loopStep, hio]

/-- **C10.** If no new-connection callback is registered when a connect
completes, the branch invokes nothing for that client, immediately
re-arms (creating the next endpoint and overwriting `next_pipe_` with the
fresh handle) without closing or delivering the accepted endpoint, and the
loop continues accepting. -/
theorem unset_callback_rearm_without_close (s : AcceptorState) (we : Nat)
    (p gorOk : Bool) (gorGLE : Nat) (rearm : ConnectEnv) (p2 : Bool)
    (hcb : s.newConnectionCallback = false)
    (hok : p = false ∨ gorOk = true)
    (hsucc : (createConnectInstance s rearm).2.2 = Except.ok p2) :
    (loopStep s we p (LoopStep.connReady gorOk gorGLE rearm)).2.2 = StepResult.next p2 ∧
    (loopStep s we p (LoopStep.connReady gorOk gorGLE rearm)).1.nextPipe = s.handleCtr ∧
    Ev.createPipe s.handleCtr ∈ (loopStep s we p (LoopStep.connReady gorOk gorGLE rearm)).2.1 ∧
    (∀ x y, Ev.invokeNewConn x y ∉ (loopStep s we p (LoopStep.connReady gorOk gorGLE rearm)).2.1) ∧
    (∀ h, Ev.closeHandle h ∉ (loopStep s we p (LoopStep.connReady gorOk gorGLE rearm)).2.1) := by
  have hcond : ¬(p = true ∧ gorOk = false) := by
    rcases hok with h | h <;> simp [h]
  obtain ⟨hst, htr⟩ := createConnectInstance_ok s rearm p2 hsucc
  simp only [loopStep, if_neg hcond, hcb, if_false]
  rcases htr with htr | htr <;>
    simp [hsucc, hst, htr]

/-- Witness for the unset-callback theorem: accepting with no callback
registered, re-arming with a pending connect. -/
theorem unset_callback_rearm_without_close_witness :
    (loopStep acceptorNoCbs 4 true (LoopStep.connReady true 0 pendConnect)).2.2
        = StepResult.next true ∧
    (loopStep acceptorNoCbs 4 true (LoopStep.connReady true 0 pendConnect)).1.nextPipe
        = acceptorNoCbs.handleCtr ∧
    Ev.createPipe acceptorNoCbs.handleCtr
        ∈ (loopStep acceptorNoCbs 4 true (LoopStep.connReady true 0 pendConnect)).2.1 ∧
    (∀ x y, Ev.invokeNewConn x y
        ∉ (loopStep acceptorNoCbs 4 true (LoopStep.connReady true 0 pendConnect)).2.1) ∧
    (∀ h, Ev.closeHandle h
        ∉ (loopStep acceptorNoCbs 4 true (LoopStep.connReady true 0 pendConnect)).2.1) :=
  unset_callback_rearm_without_close acceptorNoCbs 4 true true 0 pendConnect true
    (by decide) (Or.inr rfl) rfl

end Interprocess

namespace Interprocess

@[simp] theorem closeCount_append (a b : List Ev) (h : Nat) :
    closeCount (a ++ b) h = closeCount a h + closeCount b h := by
  simp [closeCount, List.countP_append]

@[simp] theorem pipeCreateCount_append (a b : List Ev) (h : Nat) :
    pipeCreateCount (a ++ b) h = pipeCreateCount a h + pipeCreateCount b h := by
  simp [pipeCreateCount, List.countP_append]

@[simp] theorem eventCreateCount_append (a b : List Ev) (h : Nat) :
    eventCreateCount (a ++ b) h = eventCreateCount a h + eventCreateCount b h := by
  simp [eventCreateCount, List.countP_append]

@[simp] theorem handoffCount_append (a b : List Ev) (h : Nat) :
    handoffCount (a ++ b) h = handoffCount a h + handoffCount b h := by
  simp [handoffCount, List.countP_append]

/-- A trace with no `closeHandle h` events has `closeCount` zero. -/
theorem closeCount_eq_zero (tr : List Ev) (h : Nat)
    (hm : Ev.closeHandle h ∉ tr) : closeCount tr h = 0 := by
  rw [closeCount, List.countP_eq_zero]
  intro ev hev
  cases ev <;> simp
  intro hcontra
  subst hcontra
  exact hm hev

/-- A trace with no `createEvent h` events has `eventCreateCount` zero. -/
theorem eventCreateCount_eq_zero (tr : List Ev) (h : Nat)
    (hm : ∀ mr si, Ev.createEvent h mr si ∉ tr) : eventCreateCount tr h = 0 := by
  rw [eventCreateCount, List.countP_eq_zero]
  intro ev hev
  cases ev <;> simp
  intro hcontra
  subst hcontra
  exact hm _ _ hev

/-- A trace with no `createPipe h` events has `pipeCreateCount` zero. -/
theorem pipeCreateCount_eq_zero (tr : List Ev) (h : Nat)
    (hm : Ev.createPipe h ∉ tr) : pipeCreateCount tr h = 0 := by
  rw [pipeCreateCount, List.countP_eq_zero]
  intro ev hev
  cases ev <;> simp
  intro hcontra
  subst hcontra
  exact hm hev

/-- A trace with no `invokeNewConn h` events has `handoffCount` zero. -/
theorem handoffCount_eq_zero (tr : List Ev) (h : Nat)
    (hm : ∀ v, Ev.invokeNewConn h v ∉ tr) : handoffCount tr h = 0 := by
  rw [handoffCount, List.countP_eq_zero]
  intro ev hev
  cases ev <;> simp
  intro hcontra
  subst hcontra
  exact hm _ hev

end Interprocess

namespace Interprocess

@[simp] theorem pipeCreateCount_nil (h : Nat) : pipeCreateCount [] h = 0 := rfl

@[simp] theorem handoffCount_nil (h : Nat) : handoffCount [] h = 0 := rfl

@[simp] theorem pipeCreateCount_cons_invoke (q v : Nat) (tr : List Ev) (h : Nat) :
    pipeCreateCount (Ev.invokeNewConn q v :: tr) h = pipeCreateCount tr h := by
  simp [pipeCreateCount, List.countP_cons]

@[simp] theorem pipeCreateCount_cons_setEvent (x : Nat) (tr : List Ev) (h : Nat) :
    pipeCreateCount (Ev.setEvent x :: tr) h = pipeCreateCount tr h := by
  simp [pipeCreateCount, List.countP_cons]

@[simp] theorem pipeCreateCount_cons_deferred (tr : List Ev) (h : Nat) :
    pipeCreateCount (Ev.invokeDeferred :: tr) h = pipeCreateCount tr h := by
  simp [pipeCreateCount, List.countP_cons]

@[simp] theorem pipeCreateCount_cons_pipe (n : Nat) (tr : List Ev) (h : Nat) :
    pipeCreateCount (Ev.createPipe n :: tr) h =
      pipeCreateCount tr h + (if n = h then 1 else 0) := by
  simp [pipeCreateCount, List.countP_cons]

@[simp] theorem handoffCount_cons_invoke (q v : Nat) (tr : List Ev) (h : Nat) :
    handoffCount (Ev.invokeNewConn q v :: tr) h =
      handoffCount tr h + (if q = h then 1 else 0) := by
  simp [handoffCount, List.countP_cons]

@[simp] theorem handoffCount_cons_setEvent (x : Nat) (tr : List Ev) (h : Nat) :
    handoffCount (Ev.setEvent x :: tr) h = handoffCount tr h := by
  simp [handoffCount, List.countP_cons]

@[simp] theorem handoffCount_cons_deferred (tr : List Ev) (h : Nat) :
    handoffCount (Ev.invokeDeferred :: tr) h = handoffCount tr h := by
  simp [handoffCount, List.countP_cons]

@[simp] theorem handoffCount_cons_pipe (n : Nat) (tr : List Ev) (h : Nat) :
    handoffCount (Ev.createPipe n :: tr) h = handoffCount tr h := by
  simp [handoffCount, List.countP_cons]

theorem runLoop_cons_next (s : AcceptorState) (we : Nat) (p : Bool)
    (step : LoopStep) (rest : List LoopStep) (p2 : Bool)
    (h : (loopStep s we p step).2.2 = StepResult.next p2) :
    runLoop we s p (step :: rest) =
      ((runLoop we (loopStep s we p step).1 p2 rest).1,
       (loopStep s we p step).2.1 ++ (runLoop we (loopStep s we p step).1 p2 rest).2.1,
       (runLoop we (loopStep s we p step).1 p2 rest).2.2) := by
  simp only [runLoop, h]

theorem runLoop_cons_stopped (s : AcceptorState) (we : Nat) (p : Bool)
    (step : LoopStep) (rest : List LoopStep)
    (h : (loopStep s we p step).2.2 = StepResult.stopped) :
    runLoop we s p (step :: rest) =
      ((loopStep s we p step).1, (loopStep s we p step).2.1, RunOutcome.stopped) := by
  simp only [runLoop, h]

theorem runLoop_cons_errored (s : AcceptorState) (we : Nat) (p : Bool)
    (step : LoopStep) (rest : List LoopStep) (e : ConnError)
    (h : (loopStep s we p step).2.2 = StepResult.errored e) :
    runLoop we s p (step :: rest) =
      ((loopStep s we p step).1, (loopStep s we p step).2.1, RunOutcome.errored e) := by
  simp only [runLoop, h]

theorem loopStep_connReady_ok (s : AcceptorState) (we : Nat) (p gorOk : Bool)
    (gorGLE : Nat) (rearm : ConnectEnv)
    (hcond : ¬(p = true ∧ gorOk = false)) (hcb : s.newConnectionCallback = true)
    (p2 : Bool) (hres : (createConnectInstance s rearm).2.2 = Except.ok p2) :
    loopStep s we p (LoopStep.connReady gorOk gorGLE rearm) =
      ((createConnectInstance s rearm).1,
       Ev.invokeNewConn s.nextPipe we :: (createConnectInstance s rearm).2.1,
       StepResult.next p2) := by
  simp only [loopStep, if_neg hcond, hcb, if_true, hres]
  simp

theorem loopStep_connReady_err (s : AcceptorState) (we : Nat) (p gorOk : Bool)
    (gorGLE : Nat) (rearm : ConnectEnv)
    (hcond : ¬(p = true ∧ gorOk = false)) (hcb : s.newConnectionCallback = true)
    (e : ConnError) (hres : (createConnectInstance s rearm).2.2 = Except.error e) :
    loopStep s we p (LoopStep.connReady gorOk gorGLE rearm) =
      ((createConnectInstance s rearm).1,
       Ev.invokeNewConn s.nextPipe we :: (createConnectInstance s rearm).2.1,
       StepResult.errored e) := by
  simp only [loopStep, if_neg hcond, hcb, if_true, hres]
  simp

end Interprocess

namespace Interprocess

/-- Pipe-handle accounting across the loop with the new-connection
callback registered: the fresh-handle counter only grows; the `next_pipe_`
at exit is the invalid sentinel, the entry pipe, or a pipe created during
the run; pipes created during the run are fresh (none below the entry
counter) and pairwise distinct (each created at most once); and in
counting form every pipe that entered live or was created during the run
is retired exactly once — handed to the callback, or still live in
`next_pipe_` at exit. -/
theorem runLoop_pipes (we : Nat) :
    ∀ (steps : List LoopStep) (s : AcceptorState) (p : Bool),
    s.newConnectionCallback = true →
    2 ≤ s.nextPipe →
    s.nextPipe < s.handleCtr →
    (s.handleCtr ≤ (runLoop we s p steps).1.handleCtr) ∧
    ((runLoop we s p steps).1.nextPipe = INVALID_HANDLE_VALUE ∨
      (runLoop we s p steps).1.nextPipe = s.nextPipe ∨
      s.handleCtr ≤ (runLoop we s p steps).1.nextPipe) ∧
    (∀ h, h < s.handleCtr → pipeCreateCount (runLoop we s p steps).2.1 h = 0) ∧
    (∀ h, pipeCreateCount (runLoop we s p steps).2.1 h ≤ 1) ∧
    (∀ h, 2 ≤ h →
      handoffCount (runLoop we s p steps).2.1 h +
          (if h = (runLoop we s p steps).1.nextPipe then 1 else 0)
        = pipeCreateCount (runLoop we s p steps).2.1 h +
          (if h = s.nextPipe then 1 else 0)) := by
  intro steps
  induction steps with
  | nil =>
    intro s p hcb h2 hlt
    exact ⟨Nat.le_refl _, Or.inr (Or.inl rfl), fun h hh => rfl, fun h => Nat.zero_le _,
      fun h hh => rfl⟩
  | cons step rest ih =>
    intro s p hcb h2 hlt
    cases step with
    | stopSignal =>
      rw [runLoop_cons_stopped s we p LoopStep.stopSignal rest rfl]
      exact ⟨Nat.le_refl _, Or.inr (Or.inl rfl), fun h hh => rfl, fun h => Nat.zero_le _,
        fun h hh => rfl⟩
    | waitFailed gle =>
      rw [runLoop_cons_errored s we p (LoopStep.waitFailed gle) rest
        (gleMsg "Unexpected error GLE = " gle) rfl]
      exact ⟨Nat.le_refl _, Or.inr (Or.inl rfl), fun h hh => rfl, fun h => Nat.zero_le _,
        fun h hh => rfl⟩
    | ioCompletion =>
      rw [runLoop_cons_next s we p LoopStep.ioCompletion rest p rfl]
      simpa [loopStep] using ih s p hcb h2 hlt
    | workReady =>
      obtain ⟨ihA, ihB, ihD, ihF, ihG⟩ := ih s p hcb h2 hlt
      rw [runLoop_cons_next s we p LoopStep.workReady rest p rfl]
      simp only [loopStep]
      cases hio : s.asyncIoCallback with
      | false =>
        simp only [hio, Bool.false_eq_true, if_false, List.nil_append]
        exact ⟨ihA, ihB, ihD, ihF, ihG⟩
      | true =>
        simp only [hio, if_true, List.singleton_append]
        refine ⟨ihA, ihB, ?_, ?_, ?_⟩
        · intro h hh
          simp [ihD h hh]
        · intro h
          simpa using ihF h
        · intro h hh
          simpa using ihG h hh
    | connReady gorOk gorGLE rearm =>
      by_cases hcond : p = true ∧ gorOk = false
      · have hfull : loopStep s we p (LoopStep.connReady gorOk gorGLE rearm) =
            (s, [], StepResult.errored (gleMsg "ConnectNamedPipe failed GLE = " gorGLE)) := by
          simp only [loopStep, if_pos hcond]
        rw [runLoop_cons_errored s we p (LoopStep.connReady gorOk gorGLE rearm) rest
          (gleMsg "ConnectNamedPipe failed GLE = " gorGLE) (by rw [hfull]), hfull]
        exact ⟨Nat.le_refl _, Or.inr (Or.inl rfl), fun h hh => rfl, fun h => Nat.zero_le _,
          fun h hh => rfl⟩
      · rcases createConnectInstance_cases s rearm with ⟨hst, htr, e, herr⟩ | ⟨hst, htr2⟩
        · have hstep := loopStep_connReady_err s we p gorOk gorGLE rearm hcond hcb e herr
          rw [runLoop_cons_errored s we p (LoopStep.connReady gorOk gorGLE rearm) rest e
            (by rw [hstep]), hstep, hst, htr]
          dsimp only
          refine ⟨Nat.le_refl _, Or.inl rfl, fun h hh => by simp, fun h => by simp, ?_⟩
          intro h hh
          have hne : ¬(h = INVALID_HANDLE_VALUE) := by
            unfold INVALID_HANDLE_VALUE
            omega
          simp only [handoffCount_cons_invoke, handoffCount_nil, pipeCreateCount_cons_invoke,
            pipeCreateCount_nil, if_neg hne]
          by_cases hsp : h = s.nextPipe
          · subst hsp
            simp
          · have hsp2 : ¬(s.nextPipe = h) := fun hh2 => hsp hh2.symm
            simp [if_neg hsp, if_neg hsp2]
        · cases hres : (createConnectInstance s rearm).2.2 with
          | error e =>
            have hstep := loopStep_connReady_err s we p gorOk gorGLE rearm hcond hcb e hres
            rw [runLoop_cons_errored s we p (LoopStep.connReady gorOk gorGLE rearm) rest e
              (by rw [hstep]), hstep, hst]
            dsimp only
            refine ⟨Nat.le_succ _, Or.inr (Or.inr (Nat.le_refl _)), ?_, ?_, ?_⟩
            · intro h hh
              have hn2 : s.handleCtr ≠ h := Nat.ne_of_gt hh
              rcases htr2 with htr | htr <;> rw [htr] <;> simp [hn2]
            · intro h
              rcases htr2 with htr | htr <;> rw [htr] <;>
                simp only [pipeCreateCount_cons_invoke, pipeCreateCount_cons_pipe,
                  pipeCreateCount_cons_setEvent, pipeCreateCount_nil] <;>
                split_ifs <;> omega
            · intro h hh
              rcases htr2 with htr | htr <;> rw [htr] <;>
                simp only [handoffCount_cons_invoke, handoffCount_cons_pipe,
                  handoffCount_cons_setEvent, handoffCount_nil, pipeCreateCount_cons_invoke,
                  pipeCreateCount_cons_pipe, pipeCreateCount_cons_setEvent,
                  pipeCreateCount_nil] <;>
                split_ifs <;> omega
          | ok p2 =>
            have hstep := loopStep_connReady_ok s we p gorOk gorGLE rearm hcond hcb p2 hres
            rw [runLoop_cons_next s we p (LoopStep.connReady gorOk gorGLE rearm) rest p2
              (by rw [hstep]), hstep, hst]
            dsimp only
            set s3 : AcceptorState := { s with nextPipe := s.handleCtr, handleCtr := s.handleCtr + 1 } with hs3
            have hcb2 : s3.newConnectionCallback = true := hcb
            have h22 : 2 ≤ s3.nextPipe := le_trans h2 (Nat.le_of_lt hlt)
            have hlt2 : s3.nextPipe < s3.handleCtr := Nat.lt_succ_self _
            have hnp3 : s3.nextPipe = s.handleCtr := rfl
            have hhc3 : s3.handleCtr = s.handleCtr + 1 := rfl
            obtain ⟨ihA, ihB, ihD, ihF, ihG⟩ := ih s3 p2 hcb2 h22 hlt2
            rw [hhc3] at ihA ihD
            rw [hnp3] at ihB ihG
            refine ⟨le_trans (Nat.le_succ _) ihA, ?_, ?_, ?_, ?_⟩
            · rw [hhc3] at ihB
              rcases ihB with hB | hB | hB
              · exact Or.inl hB
              · exact Or.inr (Or.inr (le_of_eq hB.symm))
              · exact Or.inr (Or.inr (le_trans (Nat.le_succ _) hB))
            · intro h hh
              rw [List.cons_append, pipeCreateCount_cons_invoke, pipeCreateCount_append]
              have hn2 : s.handleCtr ≠ h := Nat.ne_of_gt hh
              have hz : pipeCreateCount (createConnectInstance s rearm).2.1 h = 0 := by
                rcases htr2 with htr | htr <;> rw [htr] <;> simp [hn2]
              rw [hz, ihD h (lt_trans hh (Nat.lt_succ_self _))]
            · intro h
              rw [List.cons_append, pipeCreateCount_cons_invoke, pipeCreateCount_append]
              by_cases hn : h = s.handleCtr
              · subst hn
                have hz2 : pipeCreateCount (runLoop we s3 p2 rest).2.1 s.handleCtr = 0 :=
                  ihD s.handleCtr (Nat.lt_succ_self _)
                rcases htr2 with htr | htr <;> rw [htr] <;> simp [hz2]
              · have hn2 : s.handleCtr ≠ h := fun hh2 => hn hh2.symm
                have hz1 : pipeCreateCount (createConnectInstance s rearm).2.1 h = 0 := by
                  rcases htr2 with htr | htr <;> rw [htr] <;> simp [hn2]
                rw [hz1]
                simpa using ihF h
            · intro h hh
              rw [List.cons_append, handoffCount_cons_invoke, handoffCount_append,
                pipeCreateCount_cons_invoke, pipeCreateCount_append]
              have hG := ihG h hh
              have hstep_pipe : pipeCreateCount (createConnectInstance s rearm).2.1 h =
                  (if s.handleCtr = h then 1 else 0) := by
                rcases htr2 with htr | htr <;> rw [htr] <;> simp
              have hstep_hand : handoffCount (createConnectInstance s rearm).2.1 h = 0 := by
                rcases htr2 with htr | htr <;> rw [htr] <;> simp
              rw [hstep_pipe, hstep_hand]
              split_ifs at hG ⊢ <;> omega

end Interprocess

namespace Interprocess

/-- `deliver` traces contain no resource operations. -/
theorem deliver_counts (s : AcceptorState) (x : Option ConnError) (h : Nat) :
    closeCount (deliver s x) h = 0 ∧ pipeCreateCount (deliver s x) h = 0 ∧
    eventCreateCount (deliver s x) h = 0 ∧ handoffCount (deliver s x) h = 0 := by
  unfold deliver
  split <;>
    simp [closeCount, pipeCreateCount, eventCreateCount, handoffCount, List.countP_cons]


@[simp] theorem closeCount_nil (h : Nat) : closeCount [] h = 0 := rfl
@[simp] theorem closeCount_cons_pipe (h2 : Nat) (tr : List Ev) (h : Nat) :
    closeCount (Ev.createPipe h2 :: tr) h = closeCount tr h := by
  simp [closeCount, List.countP_cons]

@[simp] theorem closeCount_cons_event (h2 : Nat) (mr : Bool) (si : Bool) (tr : List Ev) (h : Nat) :
    closeCount (Ev.createEvent h2 mr si :: tr) h = closeCount tr h := by
  simp [closeCount, List.countP_cons]

@[simp] theorem closeCount_cons_close (h2 : Nat) (tr : List Ev) (h : Nat) :
    closeCount (Ev.closeHandle h2 :: tr) h = closeCount tr h + (if h2 = h then 1 else 0) := by
  simp [closeCount, List.countP_cons]

@[simp] theorem closeCount_cons_setEv (h2 : Nat) (tr : List Ev) (h : Nat) :
    closeCount (Ev.setEvent h2 :: tr) h = closeCount tr h := by
  simp [closeCount, List.countP_cons]

@[simp] theorem closeCount_cons_waitArr (a : Nat) (b : Nat) (c : Nat) (tr : List Ev) (h : Nat) :
    closeCount (Ev.waitArray a b c :: tr) h = closeCount tr h := by
  simp [closeCount, List.countP_cons]

@[simp] theorem closeCount_cons_invoke (q : Nat) (v : Nat) (tr : List Ev) (h : Nat) :
    closeCount (Ev.invokeNewConn q v :: tr) h = closeCount tr h := by
  simp [closeCount, List.countP_cons]

@[simp] theorem closeCount_cons_deferred (tr : List Ev) (h : Nat) :
    closeCount (Ev.invokeDeferred :: tr) h = closeCount tr h := by
  simp [closeCount, List.countP_cons]

@[simp] theorem closeCount_cons_exc (o : Option ConnError) (tr : List Ev) (h : Nat) :
    closeCount (Ev.invokeException o :: tr) h = closeCount tr h := by
  simp [closeCount, List.countP_cons]

@[simp] theorem pipeCreateCount_cons_event (h2 : Nat) (mr : Bool) (si : Bool) (tr : List Ev) (h : Nat) :
    pipeCreateCount (Ev.createEvent h2 mr si :: tr) h = pipeCreateCount tr h := by
  simp [pipeCreateCount, List.countP_cons]

@[simp] theorem pipeCreateCount_cons_close (h2 : Nat) (tr : List Ev) (h : Nat) :
    pipeCreateCount (Ev.closeHandle h2 :: tr) h = pipeCreateCount tr h := by
  simp [pipeCreateCount, List.countP_cons]

@[simp] theorem pipeCreateCount_cons_waitArr (a : Nat) (b : Nat) (c : Nat) (tr : List Ev) (h : Nat) :
    pipeCreateCount (Ev.waitArray a b c :: tr) h = pipeCreateCount tr h := by
  simp [pipeCreateCount, List.countP_cons]

@[simp] theorem pipeCreateCount_cons_exc (o : Option ConnError) (tr : List Ev) (h : Nat) :
    pipeCreateCount (Ev.invokeException o :: tr) h = pipeCreateCount tr h := by
  simp [pipeCreateCount, List.countP_cons]

@[simp] theorem eventCreateCount_nil (h : Nat) : eventCreateCount [] h = 0 := rfl
@[simp] theorem eventCreateCount_cons_pipe (h2 : Nat) (tr : List Ev) (h : Nat) :
    eventCreateCount (Ev.createPipe h2 :: tr) h = eventCreateCount tr h := by
  simp [eventCreateCount, List.countP_cons]

@[simp] theorem eventCreateCount_cons_event (h2 : Nat) (mr : Bool) (si : Bool) (tr : List Ev) (h : Nat) :
    eventCreateCount (Ev.createEvent h2 mr si :: tr) h = eventCreateCount tr h + (if h2 = h then 1 else 0) := by
  simp [eventCreateCount, List.countP_cons]

@[simp] theorem eventCreateCount_cons_close (h2 : Nat) (tr : List Ev) (h : Nat) :
    eventCreateCount (Ev.closeHandle h2 :: tr) h = eventCreateCount tr h := by
  simp [eventCreateCount, List.countP_cons]

@[simp] theorem eventCreateCount_cons_setEv (h2 : Nat) (tr : List Ev) (h : Nat) :
    eventCreateCount (Ev.setEvent h2 :: tr) h = eventCreateCount tr h := by
  simp [eventCreateCount, List.countP_cons]

@[simp] theorem eventCreateCount_cons_waitArr (a : Nat) (b : Nat) (c : Nat) (tr : List Ev) (h : Nat) :
    eventCreateCount (Ev.waitArray a b c :: tr) h = eventCreateCount tr h := by
  simp [eventCreateCount, List.countP_cons]

@[simp] theorem eventCreateCount_cons_invoke (q : Nat) (v : Nat) (tr : List Ev) (h : Nat) :
    eventCreateCount (Ev.invokeNewConn q v :: tr) h = eventCreateCount tr h := by
  simp [eventCreateCount, List.countP_cons]

@[simp] theorem eventCreateCount_cons_deferred (tr : List Ev) (h : Nat) :
    eventCreateCount (Ev.invokeDeferred :: tr) h = eventCreateCount tr h := by
  simp [eventCreateCount, List.countP_cons]

@[simp] theorem eventCreateCount_cons_exc (o : Option ConnError) (tr : List Ev) (h : Nat) :
    eventCreateCount (Ev.invokeException o :: tr) h = eventCreateCount tr h := by
  simp [eventCreateCount, List.countP_cons]

@[simp] theorem handoffCount_cons_event (h2 : Nat) (mr : Bool) (si : Bool) (tr : List Ev) (h : Nat) :
    handoffCount (Ev.createEvent h2 mr si :: tr) h = handoffCount tr h := by
  simp [handoffCount, List.countP_cons]

@[simp] theorem handoffCount_cons_close (h2 : Nat) (tr : List Ev) (h : Nat) :
    handoffCount (Ev.closeHandle h2 :: tr) h = handoffCount tr h := by
  simp [handoffCount, List.countP_cons]

@[simp] theorem handoffCount_cons_waitArr (a : Nat) (b : Nat) (c : Nat) (tr : List Ev) (h : Nat) :
    handoffCount (Ev.waitArray a b c :: tr) h = handoffCount tr h := by
  simp [handoffCount, List.countP_cons]

@[simp] theorem handoffCount_cons_exc (o : Option ConnError) (tr : List Ev) (h : Nat) :
    handoffCount (Ev.invokeException o :: tr) h = handoffCount tr h := by
  simp [handoffCount, List.countP_cons]

theorem if_eq_swap (a b : Nat) : (if a = b then (1 : Nat) else 0) = (if b = a then 1 else 0) := by
  by_cases hab : a = b
  · subst hab
    rfl
  · rw [if_neg hab, if_neg (fun x => hab x.symm)]

end Interprocess

namespace Interprocess

/-- Resource accounting for the loop body with the new-connection callback
registered: the body creates no events and closes exactly the two loop
events (once each, via the scoped guards); the pipes it creates are fresh
and pairwise distinct; the exit `next_pipe_` is the invalid sentinel or a
fresh pipe; and each created pipe is retired exactly once — handed to the
callback or still held in `next_pipe_` at exit. -/
theorem listenBody_pipes (s2 : AcceptorState) (ce we : Nat) (fc : ConnectEnv)
    (steps : List LoopStep)
    (hcb : s2.newConnectionCallback = true)
    (hctr : 2 ≤ s2.handleCtr)
    (hout : (listenBody s2 ce we fc steps).2.2 ≠ RunOutcome.running) :
    (listenBody s2 ce we fc steps).1.closeEvent = s2.closeEvent ∧
    (∀ h, eventCreateCount (listenBody s2 ce we fc steps).2.1 h = 0) ∧
    (∀ h, closeCount (listenBody s2 ce we fc steps).2.1 h =
      (if we = h then 1 else 0) + (if ce = h then 1 else 0)) ∧
    (∀ h, h < s2.handleCtr → pipeCreateCount (listenBody s2 ce we fc steps).2.1 h = 0) ∧
    (∀ h, pipeCreateCount (listenBody s2 ce we fc steps).2.1 h ≤ 1) ∧
    ((listenBody s2 ce we fc steps).1.nextPipe = INVALID_HANDLE_VALUE ∨
      s2.handleCtr ≤ (listenBody s2 ce we fc steps).1.nextPipe) ∧
    (∀ h, 2 ≤ h →
      handoffCount (listenBody s2 ce we fc steps).2.1 h +
        (if h = (listenBody s2 ce we fc steps).1.nextPipe then 1 else 0)
      = pipeCreateCount (listenBody s2 ce we fc steps).2.1 h) := by
  rcases createConnectInstance_cases s2 fc with ⟨hst, htr, e0, herr⟩ | ⟨hst, htr2⟩
  · simp only [listenBody, herr]
    rw [hst, htr]
    dsimp only
    refine ⟨rfl, ?_, ?_, ?_, ?_, Or.inl rfl, ?_⟩
    · intro h
      simp [(deliver_counts _ (some e0) h).2.2.1]
    · intro h
      simp [(deliver_counts _ (some e0) h).1]
      omega
    · intro h hh
      simp [(deliver_counts _ (some e0) h).2.1]
    · intro h
      simp [(deliver_counts _ (some e0) h).2.1]
    · intro h hh
      have hne : ¬(h = INVALID_HANDLE_VALUE) := by
        unfold INVALID_HANDLE_VALUE
        omega
      simp [(deliver_counts _ (some e0) h).2.2.2, (deliver_counts _ (some e0) h).2.1,
        if_neg hne]
  · cases hc : (createConnectInstance s2 fc).2.2 with
    | error e =>
      simp only [listenBody, hc]
      rw [hst]
      dsimp only
      refine ⟨rfl, ?_, ?_, ?_, ?_, Or.inr (Nat.le_refl _), ?_⟩
      · intro h
        rcases htr2 with htr | htr <;> rw [htr] <;>
          simp [(deliver_counts _ (some e) h).2.2.1]
      · intro h
        rcases htr2 with htr | htr <;> rw [htr] <;>
          · simp [(deliver_counts _ (some e) h).1]
            omega
      · intro h hh
        have hn2 : s2.handleCtr ≠ h := Nat.ne_of_gt hh
        rcases htr2 with htr | htr <;> rw [htr] <;>
          simp [(deliver_counts _ (some e) h).2.1, hn2]
      · intro h
        rcases htr2 with htr | htr <;> rw [htr] <;>
          · simp [(deliver_counts _ (some e) h).2.1]
            split_ifs <;> omega
      · intro h hh
        rcases htr2 with htr | htr <;> rw [htr] <;>
          · simp [(deliver_counts _ (some e) h).2.2.2, (deliver_counts _ (some e) h).2.1]
            split_ifs <;> omega
    | ok p =>
      have hcb2 : (createConnectInstance s2 fc).1.newConnectionCallback = true := by
        rw [hst]
        exact hcb
      have h22 : 2 ≤ (createConnectInstance s2 fc).1.nextPipe := by
        rw [hst]
        exact hctr
      have hlt2 : (createConnectInstance s2 fc).1.nextPipe <
          (createConnectInstance s2 fc).1.handleCtr := by
        rw [hst]
        exact Nat.lt_succ_self _
      obtain ⟨ihA, ihB, ihD, ihF, ihG⟩ :=
        runLoop_pipes we steps (createConnectInstance s2 fc).1 p hcb2 h22 hlt2
      obtain ⟨r1, r2, r3, r4, r5, r6, r7, r8⟩ :=
        runLoop_trace we steps (createConnectInstance s2 fc).1 p
      have hz_close : ∀ h,
          closeCount (runLoop we (createConnectInstance s2 fc).1 p steps).2.1 h = 0 :=
        fun h => closeCount_eq_zero _ h (r4 h)
      have hz_event : ∀ h,
          eventCreateCount (runLoop we (createConnectInstance s2 fc).1 p steps).2.1 h = 0 :=
        fun h => eventCreateCount_eq_zero _ h (fun mr si => r3 h mr si)
      have hnp1 : (createConnectInstance s2 fc).1.nextPipe = s2.handleCtr := by
        rw [hst]
      have hhc1 : (createConnectInstance s2 fc).1.handleCtr = s2.handleCtr + 1 := by
        rw [hst]
      have hce1 : (createConnectInstance s2 fc).1.closeEvent = s2.closeEvent := by
        rw [hst]
      rw [hnp1] at ihB ihG
      rw [hhc1] at ihA ihB ihD
      cases hrl : (runLoop we (createConnectInstance s2 fc).1 p steps).2.2 with
      | running =>
        exact absurd (by simp [listenBody, hc, hrl]) hout
      | stopped =>
        simp only [listenBody, hc, hrl]
        refine ⟨by rw [r8, hce1], ?_, ?_, ?_, ?_, ?_, ?_⟩
        · intro h
          rcases htr2 with htr | htr <;> rw [htr] <;>
            simp [hz_event h, (deliver_counts _ none h).2.2.1]
        · intro h
          rcases htr2 with htr | htr <;> rw [htr] <;>
            · simp [hz_close h, (deliver_counts _ none h).1]
              omega
        · intro h hh
          have hn2 : s2.handleCtr ≠ h := Nat.ne_of_gt hh
          rcases htr2 with htr | htr <;> rw [htr] <;>
            simp [(deliver_counts _ none h).2.1, hn2, ihD h (by omega), hz_close h]
        · intro h
          by_cases hn : h = s2.handleCtr
          · subst hn
            have hz2 := ihD s2.handleCtr (Nat.lt_succ_self _)
            rcases htr2 with htr | htr <;> rw [htr] <;>
              simp [(deliver_counts _ none _).2.1, hz2]
          · have hn2 : s2.handleCtr ≠ h := fun x => hn x.symm
            have hF := ihF h
            rcases htr2 with htr | htr <;> rw [htr] <;>
              · simp [(deliver_counts _ none h).2.1, hn2]
                omega
        · rcases ihB with hB | hB | hB
          · exact Or.inl hB
          · exact Or.inr (le_of_eq hB.symm)
          · exact Or.inr (by omega)
        · intro h hh
          have hGg := ihG h hh
          rcases htr2 with htr | htr <;> rw [htr] <;>
            · simp [(deliver_counts _ none h).2.2.2, (deliver_counts _ none h).2.1,
                hz_close h]
              split_ifs at hGg ⊢ <;> omega
      | errored e =>
        simp only [listenBody, hc, hrl]
        refine ⟨by rw [r8, hce1], ?_, ?_, ?_, ?_, ?_, ?_⟩
        · intro h
          rcases htr2 with htr | htr <;> rw [htr] <;>
            simp [hz_event h, (deliver_counts _ (some e) h).2.2.1]
        · intro h
          rcases htr2 with htr | htr <;> rw [htr] <;>
            · simp [hz_close h, (deliver_counts _ (some e) h).1]
              omega
        · intro h hh
          have hn2 : s2.handleCtr ≠ h := Nat.ne_of_gt hh
          rcases htr2 with htr | htr <;> rw [htr] <;>
            simp [(deliver_counts _ (some e) h).2.1, hn2, ihD h (by omega), hz_close h]
        · intro h
          by_cases hn : h = s2.handleCtr
          · subst hn
            have hz2 := ihD s2.handleCtr (Nat.lt_succ_self _)
            rcases htr2 with htr | htr <;> rw [htr] <;>
              simp [(deliver_counts _ (some e) _).2.1, hz2]
          · have hn2 : s2.handleCtr ≠ h := fun x => hn x.symm
            have hF := ihF h
            rcases htr2 with htr | htr <;> rw [htr] <;>
              · simp [(deliver_counts _ (some e) h).2.1, hn2]
                omega
        · rcases ihB with hB | hB | hB
          · exact Or.inl hB
          · exact Or.inr (le_of_eq hB.symm)
          · exact Or.inr (by omega)
        · intro h hh
          have hGg := ihG h hh
          rcases htr2 with htr | htr <;> rw [htr] <;>
            · simp [(deliver_counts _ (some e) h).2.2.2, (deliver_counts _ (some e) h).2.1,
                hz_close h]
              split_ifs at hGg ⊢ <;> omega

end Interprocess

namespace Interprocess

@[simp] theorem closeCount_deliver (s : AcceptorState) (x : Option ConnError) (h : Nat) :
    closeCount (deliver s x) h = 0 := (deliver_counts s x h).1

@[simp] theorem pipeCreateCount_deliver (s : AcceptorState) (x : Option ConnError) (h : Nat) :
    pipeCreateCount (deliver s x) h = 0 := (deliver_counts s x h).2.1

@[simp] theorem eventCreateCount_deliver (s : AcceptorState) (x : Option ConnError) (h : Nat) :
    eventCreateCount (deliver s x) h = 0 := (deliver_counts s x h).2.2.1

@[simp] theorem handoffCount_deliver (s : AcceptorState) (x : Option ConnError) (h : Nat) :
    handoffCount (deliver s x) h = 0 := (deliver_counts s x h).2.2.2

/-- **C2 amended.** Over a full Acceptor lifetime (construction, one
`Listen()` run to completion, destruction) with a new-connection callback
registered and real handles distinct from the `NULL`/invalid sentinels:
every waitable-event handle the Acceptor creates is created once and
closed exactly once, and every endpoint handle it creates is created once
and retired exactly once — either closed exactly once (the destructor's
`CloseHandle(next_pipe_)`) or handed exactly once to the new-connection
callback (ownership transfer); never a double close. -/
theorem handles_retired_exactly_once_with_callback (endpoint : String) (ctr : Nat)
    (cbExc cbIo : Bool) (env : LoopEnv)
    (hctr : 2 ≤ ctr)
    (hout : (linstenInThread (listenState endpoint ctr true cbExc cbIo) env).2.2 ≠
      RunOutcome.running) :
    (∀ h, 1 ≤ eventCreateCount (lifetimeTrace endpoint ctr true cbExc cbIo env) h →
      eventCreateCount (lifetimeTrace endpoint ctr true cbExc cbIo env) h = 1 ∧
      closeCount (lifetimeTrace endpoint ctr true cbExc cbIo env) h = 1) ∧
    (∀ h, 1 ≤ pipeCreateCount (lifetimeTrace endpoint ctr true cbExc cbIo env) h →
      pipeCreateCount (lifetimeTrace endpoint ctr true cbExc cbIo env) h = 1 ∧
      closeCount (lifetimeTrace endpoint ctr true cbExc cbIo env) h +
        handoffCount (lifetimeTrace endpoint ctr true cbExc cbIo env) h = 1) := by
  have hTr : lifetimeTrace endpoint ctr true cbExc cbIo env =
      (acceptorCtor endpoint ctr).2 ++
        (linstenInThread (listenState endpoint ctr true cbExc cbIo) env).2.1 ++
        acceptorDtorTrace (linstenInThread (listenState endpoint ctr true cbExc cbIo) env).1 :=
    rfl
  have hCtor : (acceptorCtor endpoint ctr).2 = [Ev.createEvent ctr false false] := rfl
  have hs0np : (listenState endpoint ctr true cbExc cbIo).nextPipe = 0 := rfl
  have hs0ce : (listenState endpoint ctr true cbExc cbIo).closeEvent = ctr := rfl
  have hs0ctr : (listenState endpoint ctr true cbExc cbIo).handleCtr = ctr + 1 := rfl
  cases hce : env.connEventOk with
  | false =>
    have hrun1 : (linstenInThread (listenState endpoint ctr true cbExc cbIo) env).2.1 =
        deliver (listenState endpoint ctr true cbExc cbIo)
          (some (gleMsg "CreateEvent (connect event) failed GLE = " env.connEventGLE)) := by
      simp [linstenInThread, hce]
    have hrun2 : (linstenInThread (listenState endpoint ctr true cbExc cbIo) env).1 =
        listenState endpoint ctr true cbExc cbIo := by
      simp [linstenInThread, hce]
    refine ⟨?_, ?_⟩ <;> intro h h1 <;>
      rw [hTr, hCtor, hrun1, hrun2] at h1 ⊢ <;>
      simp [acceptorDtorTrace, hs0np, hs0ce] at h1 ⊢
    · constructor <;> split_ifs at h1 ⊢ <;> omega
  | true =>
    cases hwe : env.writeEventOk with
    | false =>
      have hrun1 : (linstenInThread (listenState endpoint ctr true cbExc cbIo) env).2.1 =
          [Ev.createEvent (ctr + 1) true true, Ev.closeHandle (ctr + 1)] ++
            deliver (listenState endpoint ctr true cbExc cbIo)
              (some (gleMsg "CreateEvent (write event) failed GLE = "
                env.writeEventGLE)) := by
        simp [linstenInThread, hce, hwe, hs0ctr]
      have hrun2 : (linstenInThread (listenState endpoint ctr true cbExc cbIo) env).1 =
          { listenState endpoint ctr true cbExc cbIo with handleCtr := ctr + 2 } := by
        simp [linstenInThread, hce, hwe, hs0ctr]
      refine ⟨?_, ?_⟩ <;> intro h h1 <;>
        rw [hTr, hCtor, hrun1, hrun2] at h1 ⊢ <;>
        simp [acceptorDtorTrace, hs0np, hs0ce] at h1 ⊢
      · constructor <;> split_ifs at h1 ⊢ <;> omega
    | true =>
      rw [linstenInThread_eq_of_ok (listenState endpoint ctr true cbExc cbIo) env hce hwe]
        at hout hTr
      set S2 : AcceptorState := { listenState endpoint ctr true cbExc cbIo with handleCtr := (listenState endpoint ctr true cbExc cbIo).handleCtr + 2, overlapEvent := (listenState endpoint ctr true cbExc cbIo).handleCtr } with hS2
      dsimp only at hout hTr
      rw [hs0ctr] at hout hTr
      rw [hs0ce] at hTr
      have hS2cb : S2.newConnectionCallback = true := rfl
      have hS2ctr : S2.handleCtr = ctr + 3 := rfl
      have hS2ce : S2.closeEvent = ctr := rfl
      obtain ⟨bCE, bEv, bCl, bD, bF, bNP, bG⟩ := listenBody_pipes
        S2 (ctr + 1) (ctr + 1 + 1) env.firstConnect env.steps hS2cb (by omega) hout
      rw [hS2ctr] at bD bNP
      rw [hS2ce] at bCE
      refine ⟨?_, ?_⟩ <;> intro h h1 <;>
        rw [hTr, hCtor] at h1 ⊢ <;>
        simp [acceptorDtorTrace, bEv h, bCl h, bCE] at h1 ⊢
      · rcases bNP with hN | hN
        · rw [hN]
          unfold INVALID_HANDLE_VALUE
          constructor <;> split_ifs at h1 ⊢ <;> omega
        · constructor <;> split_ifs at h1 ⊢ <;> omega
      · have hge : ctr + 3 ≤ h := by
          by_contra hlt
          push_neg at hlt
          rw [bD h hlt] at h1
          omega
        have hG2 := bG h (by omega)
        have hF2 := bF h
        rcases bNP with hN | hN
        · rw [hN] at hG2 ⊢
          unfold INVALID_HANDLE_VALUE at hG2 ⊢
          constructor <;> split_ifs at hG2 h1 ⊢ <;> omega
        · constructor <;> split_ifs at hG2 h1 ⊢ <;> omega

end Interprocess

namespace Interprocess

/-- Counterexample to **C2** as stated (claim: every endpoint handle the
Acceptor creates is released exactly once on every path): in a concrete
full lifetime in which one client is accepted while no new-connection
callback is registered, endpoint handle 5 is created, then overwritten by
the re-arm, and is neither closed nor handed to anyone — a leak. -/
theorem handle_leak_without_new_connection_callback :
    Ev.createPipe 5 ∈ lifetimeTrace "svc" 2 false false false cleanStopEnv ∧
    closeCount (lifetimeTrace "svc" 2 false false false cleanStopEnv) 5 = 0 ∧
    handoffCount (lifetimeTrace "svc" 2 false false false cleanStopEnv) 5 = 0 := by
  decide

/-- Witness for the amended retire-exactly-once theorem: in the clean-stop
lifetime with the callback registered, the accepted endpoint handle 5 is
created once and retired exactly once (here by handoff). -/
theorem handles_retired_exactly_once_with_callback_witness :
    pipeCreateCount (lifetimeTrace "svc" 2 true false false cleanStopEnv) 5 = 1 ∧
    closeCount (lifetimeTrace "svc" 2 true false false cleanStopEnv) 5 +
      handoffCount (lifetimeTrace "svc" 2 true false false cleanStopEnv) 5 = 1 :=
  (handles_retired_exactly_once_with_callback "svc" 2 false false cleanStopEnv
    (by decide) (by decide)).2 5 (by decide)

end Interprocess
